import Mathlib

/-!
Verification development for the `game-ai-training` repository: a shallow
embedding in Lean 4 of the episode-execution and learning pipeline
(`ai/environment.py`, `ai/trainer.py`, `ai/bot.py`, `config.py`), together
with theorems settling the frozen claims about it.

Conventions of the embedding:
* Python floats are modelled as `ℚ` (all constants in the source are decimal
  literals); the two irrational-power expressions `step_count ** 1.2` and
  `step_count ** 1.05` in `environment.py` are kept abstract as function
  parameters `p12 p105 : Nat → ℚ`, and `torch`'s `exp`/`sqrt` are kept
  abstract as parameters `rexp rsqrt : ℚ → ℚ`; theorems quantify over them.
* JSON dicts from the engine are modelled as structures with `Option` fields
  (`none` = key absent); Python truthiness of `.get` is spelled out at each
  use site.
* The external engine process is modelled as an oracle: a list of the JSON
  responses that successive `send_command` calls return, consumed in order.
  An exhausted oracle yields the timeout error object, which is one of the
  values the real `send_command` can return.
* `self.game_state` values are restricted to states in which every piece
  carries a coordinate dict for `position` (the engine always supplies one);
  with a `None` position the Python source would raise inside
  `_steps_to_entrance`.
-/

namespace Jogo

/-- A board coordinate, mirroring the `{'row': r, 'col': c}` dicts. -/
structure Pos where
  row : Int
  col : Int
deriving DecidableEq, Repr

/-- One entry of `gameState['pieces']`.  `id` models the piece's JSON id;
`0` plays the role of a falsy id (the source skips pieces with `if not pid`). -/
structure Piece where
  id : Nat
  playerId : Nat
  position : Pos
  inHomeStretch : Bool
  inPenaltyZone : Bool
  completed : Bool
deriving DecidableEq, Repr

/-- One entry of a team list: a player dict, of which only `'position'`
(the seat index) is read. -/
structure PlayerRef where
  position : Option Nat
deriving DecidableEq, Repr

/-- One entry of `gameState['players']`; only the number of cards in hand is
read by the embedded operations (`_default_discards`). -/
structure GPlayer where
  cards : Nat
deriving DecidableEq, Repr

/-- The cached `self.game_state`.  `statsHeavy` stands for the
`statsSummary['heavyRewards']` diagnostic the environment writes into it. -/
structure GameState where
  pieces : List Piece := []
  teams : List (List PlayerRef) := []
  players : List GPlayer := []
  currentPlayerIndex : Nat := 0
  gameEnded : Bool := false
  winningTeam : Option (List PlayerRef) := none
  lastMove : Option String := none
  statsHeavy : Option Nat := none
deriving DecidableEq, Repr

/-- One entry of a `captures` list in a move response. -/
structure Capture where
  pieceId : Nat
deriving DecidableEq, Repr

/-- A JSON response from the engine (or an in-band error object produced by
`send_command` itself).  `Option` fields model key presence. -/
structure EngineResponse where
  error : Option String := none
  valid : Option Bool := none
  success : Option Bool := none
  gameState : Option GameState := none
  gameEnded : Option Bool := none
  winningTeam : Option (List PlayerRef) := none
  captures : Option (List Capture) := none
  validActions : Option (List Int) := none
  ready : Option Bool := none
  hasStats : Bool := false
deriving DecidableEq, Repr

/-! Section: The transport layer: `GameEnvironment.send_command`
(`ai/environment.py` lines 352-390). -/

/-- One line observed on the engine's stdout during one 0.5s polling tick:
either a line that parses as JSON, or diagnostic noise (a non-JSON line,
which also covers a line failing `json.loads`). -/
inductive OutLine where
  | json (r : EngineResponse)
  | noise
deriving DecidableEq, Repr

/-- Lifecycle of the Node.js process as `send_command` observes it:
`self.node_process` is `None`, the process has exited (`poll()` not `None`),
or it is alive. -/
inductive ProcState where
  | noProc
  | exited
  | alive
deriving DecidableEq, Repr

/-- The part of the environment `send_command` touches: the process handle
and the cached game state (which it never writes). -/
structure Client where
  proc : ProcState
  game_state : Option GameState
deriving DecidableEq, Repr

/-- The bounded read loop of `send_command`: `attempt`s ticks remain, and the
tick stream supplies at most one line per tick (`none` = no data ready).
Non-JSON lines are skipped; the first JSON line is returned; running out of
attempts yields the in-band timeout error. -/
def pollResponse : Nat → List (Option OutLine) → EngineResponse
  | 0, _ => { error := some "Timeout waiting for response" }
  | Nat.succ n, [] => pollResponse n []
  | Nat.succ n, t :: rest =>
    match t with
    | some (OutLine.json r) => r
    | _ => pollResponse n rest

/-- `GameEnvironment.send_command`: returns an in-band error object when the
process was never started or has exited, otherwise polls stdout for up to 20
ticks for the next JSON line.  It never mutates the cached game state, and
it never raises: every path returns a response dict. -/
def send_command (c : Client) (ticks : List (Option OutLine)) :
    EngineResponse × Client :=
  match c.proc with
  | ProcState.noProc => ({ error := some "Game process not started" }, c)
  | ProcState.exited => ({ error := some "Process terminated" }, c)
  | ProcState.alive => (pollResponse 20 ticks, c)

/-- A tick outcome that delivers no JSON line (no data, or noise). -/
def tickNoJson (t : Option OutLine) : Prop :=
  ∀ r, t ≠ some (OutLine.json r)

instance (t : Option OutLine) : Decidable (tickNoJson t) := by
  unfold tickNoJson
  cases t with
  | none => exact isTrue (by intro r h; cases h)
  | some l =>
    cases l with
    | json r => exact isFalse (by intro h; exact h r rfl)
    | noise => exact isTrue (by intro r h; cases h)

/-! Section: `GameEnvironment.is_action_valid` and the oracle view of the engine.

From the perspective of the retry logic inside `step`, each call to
`send_command` produces one response dict; we model the engine as the list
of those responses (`ai/environment.py` lines 540-554 for
`is_action_valid`). -/

abbrev Oracle := List EngineResponse

/-- One `send_command` call seen through the oracle: pop the next prescribed
response; an exhausted oracle produces the timeout error object (one of the
real `send_command`'s possible returns). -/
def sendO (o : Oracle) : EngineResponse × Oracle :=
  match o with
  | [] => ({ error := some "Timeout waiting for response" }, [])
  | r :: rest => (r, rest)

/-- `GameEnvironment.is_action_valid`: ask the wrapper whether `action` is
valid for `player_id`.  An error response yields `False`; a response without
a `valid` key yields `True`; otherwise `bool(response['valid'])`. -/
def is_action_valid (o : Oracle) : Bool × Oracle :=
  let (response, o') := sendO o
  if response.error.isSome then (false, o')
  else
    match response.valid with
    | none => (true, o')
    | some b => (b, o')

/-! Section: Checkpoint loading (`ai/bot.py` lines 198-236 and 324-376). -/

/-- A checkpoint blob as produced by `torch.save`: a dict whose keys mark the
schema.  `W`, `Q`, `O` are the opaque weight/optimizer payload types. -/
structure Checkpoint (W Q O : Type) where
  model_state_dict : Option W := none
  q_network_state_dict : Option Q := none
  optimizer_state_dict : Option O := none
  wins : Option Nat := none
  games_played : Option Nat := none
  total_reward : Option ℚ := none

/-- The errors `load_model` can raise: the two designated schema-mismatch
`ValueError`s and the `KeyError` fallbacks. -/
inductive LoadError where
  | legacyDQNDetected
  | ppoDetected
  | keyErrorModelStateDict
  | keyErrorQNetworkStateDict
deriving DecidableEq, Repr

/-- The mutable fields of a `GameBot` (PPO agent) that `load_model`
touches.  The network weights and optimizer state are opaque. -/
structure GameBotS (W O : Type) where
  model : W
  optimizer : O
  wins : Nat
  games_played : Nat
  total_reward : ℚ

/-- Shared tail of both loaders: the statistics assignment (reset or restore
from the checkpoint, with the source's `.get` defaults). -/
def applyStats {W Q O : Type}
    (ckpt : Checkpoint W Q O) (reset_stats : Bool) :
    Nat × Nat × ℚ :=
  if reset_stats then (0, 0, 0)
  else (ckpt.wins.getD 0, ckpt.games_played.getD 0, ckpt.total_reward.getD 0)

/-- `GameBot.load_model`: loads a PPO checkpoint; a checkpoint carrying the
legacy `q_network_state_dict` key (and no `model_state_dict`) raises the
designated legacy-DQN `ValueError` before any field of the bot is written.
The result pairs the bot state at return/raise time with the raised error,
if any. -/
def GameBot.load_model {W Q O : Type} (b : GameBotS W O)
    (ckpt : Checkpoint W Q O) (reset_stats : Bool) :
    GameBotS W O × Option LoadError :=
  match ckpt.model_state_dict with
  | some sd =>
    let b := { b with model := sd }
    let b :=
      match ckpt.optimizer_state_dict with
      | some od => { b with optimizer := od }
      | none => b
    let (w, g, t) := applyStats ckpt reset_stats
    ({ b with wins := w, games_played := g, total_reward := t }, none)
  | none =>
    match ckpt.q_network_state_dict with
    | some _ => (b, some LoadError.legacyDQNDetected)
    | none => (b, some LoadError.keyErrorModelStateDict)

/-- The mutable fields of a legacy `DQNBot` that `load_model` touches. -/
structure DQNBotS (Q O : Type) where
  model : Q
  optimizer : O
  wins : Nat
  games_played : Nat
  total_reward : ℚ

/-- `DQNBot.load_model`: loads a legacy DQN checkpoint; a checkpoint carrying
`model_state_dict` (and no `q_network_state_dict`) raises the designated
PPO-schema `ValueError` before any field of the bot is written.  The strict
load / key-remap fallback both end with weights derived from the stored
state dict (opaque here, modelled as replacement); the optimizer load's
`ValueError` fallback is the flag `opt_load_ok`. -/
def DQNBot.load_model {W Q O : Type} (b : DQNBotS Q O)
    (ckpt : Checkpoint W Q O) (reset_stats : Bool) (opt_load_ok : Bool) :
    DQNBotS Q O × Option LoadError :=
  match ckpt.q_network_state_dict with
  | some sd =>
    let b := { b with model := sd }
    let b :=
      match ckpt.optimizer_state_dict with
      | some od => if opt_load_ok then { b with optimizer := od } else b
      | none => b
    let (w, g, t) := applyStats ckpt reset_stats
    ({ b with wins := w, games_played := g, total_reward := t }, none)
  | none =>
    match ckpt.model_state_dict with
    | some _ => (b, some LoadError.ppoDetected)
    | none => (b, some LoadError.keyErrorQNetworkStateDict)

/-! Section: reward-shaping constants (`ai/environment.py` lines 14-47 and
`config.py`). -/

def INVALID_MOVE_PENALTY : ℚ := -0.05

def WIN_BONUS : ℚ := 10.0

/-- Timeout penalty per bot, scaled with `WIN_BONUS`. -/
def TIMEOUT_PENALTY : ℚ := -WIN_BONUS / 12

/-- Reward scale for the nth piece entering the home stretch for a team. -/
def HOME_ENTRY_REWARDS : List ℚ :=
  [0.6, 1.8, 3.6, 6.0, 9.0, 12.6, 16.8, 21.6, 27.0, 33.0]

def COMPLETION_BONUS : ℚ := 5.0

def COMPLETION_DELAY_BASE : ℚ := -1.0

def COMPLETION_DELAY_GROWTH : ℚ := 1.02

def COMPLETION_DELAY_CAP : ℚ := -3.0

def POSITIVE_REWARD_DECAY : ℚ := 1.01

def FINAL_MOVE_BONUS : ℚ := 5.0

def STAGNATION_PENALTY : ℚ := -10.0

def LATE_STAGNATION_PENALTY : ℚ := -25.0

def HEAVY_REWARD_BASE : ℚ := 2.0

/-- `config.REWARD_SCHEDULE`: `(episode_start, heavy_reward)` pairs. -/
def REWARD_SCHEDULE : List (Nat × ℚ) := [(0, HEAVY_REWARD_BASE)]

def WINRATE_TARGET : ℚ := 0.75

def MAX_REWARD_MULTIPLIER : ℚ := 2.0

def MIN_REWARD_MULTIPLIER : ℚ := 0.5

def REWARD_TUNE_STEP : ℚ := 0.1

/-! Section: the reward-multiplier controller and the curriculum
(`ai/trainer.py` `_apply_reward_schedule`, `_adjust_reward_multiplier`,
and the episode-end block of `train_episode`, lines 261-283 and 437-503). -/

/-- The two environment knobs the reward schedule writes
(`set_heavy_reward` / `set_win_bonus`). -/
structure EnvKnobs where
  heavy_reward : ℚ
  win_bonus : ℚ
deriving DecidableEq, Repr

/-- `self.level_reward_multiplier.get(level, 1.0)`: the per-difficulty
multiplier dict, most recent binding first. -/
def lookupMult (m : List (Nat × ℚ)) (level : Nat) : ℚ :=
  match m.find? (fun p => p.1 == level) with
  | some p => p.2
  | none => 1.0

/-- Dict assignment `self.level_reward_multiplier[level] = factor`. -/
def setMult (m : List (Nat × ℚ)) (level : Nat) (v : ℚ) : List (Nat × ℚ) :=
  (level, v) :: m

/-- `TrainingManager._apply_reward_schedule`: pick the scheduled heavy-reward
weight for this episode, multiply by the current level's multiplier, and
write both knobs into the environment. -/
def applyRewardSchedule (episode : Nat) (mult : List (Nat × ℚ))
    (pieces_per_player : Nat) (env : EnvKnobs) : EnvKnobs :=
  let weight := REWARD_SCHEDULE.foldl
    (fun w sv => if sv.1 ≤ episode then sv.2 else w) env.heavy_reward
  let multiplier := lookupMult mult pieces_per_player
  { heavy_reward := weight * multiplier, win_bonus := WIN_BONUS * multiplier }

/-- `TrainingManager._adjust_reward_multiplier`: nudge the per-level factor
toward the win-rate target (clamped to the configured bounds) and
immediately re-apply the reward schedule. -/
def adjustRewardMultiplier (mult : List (Nat × ℚ))
    (pieces_per_player games_played : Nat) (win_rate : ℚ) (env : EnvKnobs) :
    List (Nat × ℚ) × EnvKnobs :=
  let level := pieces_per_player
  let factor := lookupMult mult level
  let factor :=
    if win_rate < WINRATE_TARGET then
      min (factor + REWARD_TUNE_STEP) MAX_REWARD_MULTIPLIER
    else if win_rate > WINRATE_TARGET + 0.15 then
      max (factor - REWARD_TUNE_STEP) MIN_REWARD_MULTIPLIER
    else factor
  let mult := setMult mult level factor
  (mult, applyRewardSchedule games_played mult pieces_per_player env)

/-- The curriculum-tracking fields of `TrainingManager` touched by the
episode-end block of `train_episode`. -/
structure Curriculum where
  pieces_per_player : Nat
  turn_limit : Nat
  stage_games : Nat
  stage_winning_games : Nat
  recent_outcomes : List Nat
  level_reward_multiplier : List (Nat × ℚ)
  games_played : Nat
  env : EnvKnobs
deriving DecidableEq, Repr

/-- `deque(maxlen=500).append`: push on the right, dropping from the left
beyond 500 entries. -/
def dequeAppend500 (d : List Nat) (x : Nat) : List Nat :=
  let d' := d ++ [x]
  d'.drop (d'.length - 500)

/-- `sum(self.recent_outcomes) / len(self.recent_outcomes) if ... else 0.0`. -/
def winRateOf (d : List Nat) : ℚ :=
  if d.isEmpty then 0 else (d.sum : ℚ) / (d.length : ℚ)

/-- The first half of the episode-end curriculum block of
`TrainingManager.train_episode` (lines 457-483): push the episode outcome
into the 500-outcome window, bump the stage counter, and run the
reward-multiplier controller on the windowed win rate.  `gameEnded` and
`winningTeam` are read from the episode's final `env.game_state`. -/
def curriculumPre (c : Curriculum) (gameEnded : Bool)
    (winningTeam : List PlayerRef) : Curriculum :=
  let c :=
    if gameEnded then
      let c :=
        if ¬winningTeam.isEmpty then
          { c with stage_winning_games := c.stage_winning_games + 1 }
        else c
      { c with recent_outcomes :=
          dequeAppend500 c.recent_outcomes (if ¬winningTeam.isEmpty then 1 else 0) }
    else
      { c with recent_outcomes := dequeAppend500 c.recent_outcomes 0 }
  let c := { c with stage_games := c.stage_games + 1 }
  let win_rate := winRateOf c.recent_outcomes
  let me := adjustRewardMultiplier c.level_reward_multiplier
    c.pieces_per_player c.games_played win_rate c.env
  { c with level_reward_multiplier := me.1, env := me.2 }

/-- The advancement check closing the curriculum block (lines 484-503):
with at least 5000 stage games and a windowed win rate of at least 0.55,
raise the piece count (capped below 5 before the increment), set
`turn_limit = 100 * pieces_per_player`, and reset the window and the stage
counters. -/
def curriculumUpdate (c : Curriculum) (gameEnded : Bool)
    (winningTeam : List PlayerRef) : Curriculum :=
  let c := curriculumPre c gameEnded winningTeam
  if 5000 ≤ c.stage_games ∧
      (0.55 : ℚ) ≤ winRateOf c.recent_outcomes ∧
      c.pieces_per_player < 5 then
    { c with
      pieces_per_player := c.pieces_per_player + 1,
      turn_limit := 100 * (c.pieces_per_player + 1),
      stage_games := 0,
      stage_winning_games := 0,
      recent_outcomes := [] }
  else c

/-- The timeout block of `TrainingManager.train_episode` (lines 437-446):
when the episode ended without `gameEnded`, add `TIMEOUT_PENALTY` to every
seat's episode reward, bump the timeout event count once, and add
`TIMEOUT_PENALTY * number_of_seats` to the timeout event total. -/
def applyTimeoutPenalty (gameEnded : Bool) (episode_rewards : List ℚ)
    (timeout_count : Nat) (timeout_total : ℚ) : List ℚ × Nat × ℚ :=
  if ¬gameEnded then
    (episode_rewards.map (fun r => r + TIMEOUT_PENALTY),
     timeout_count + 1,
     timeout_total + TIMEOUT_PENALTY * (episode_rewards.length : ℚ))
  else
    (episode_rewards, timeout_count, timeout_total)

/-! Section: the PPO policy-optimization step, `GameBot.replay`
(`ai/bot.py` lines 134-193).  The neural network itself is opaque: its
per-transition outputs under the current policy enter as the parameter
`new_log_probs`, and `torch.exp` / the square root inside
`Tensor.std` enter as the abstract real functions `rexp` / `rsqrt`. -/

/-- One buffered transition, as stored by `GameBot.remember`
(the raw state array is only forwarded to the opaque network and is not
carried here). -/
structure Transition where
  action : Nat
  reward : ℚ
  done : Bool
  log_prob : ℚ
  value : ℚ
  entropy : ℚ
  game_won : Bool
  extra_advantage : ℚ
deriving DecidableEq, Repr

/-- The hyperparameters of `GameBot` that `replay` reads. -/
structure GameBotHyper where
  gamma : ℚ
  clip_eps : ℚ
  batch_size : Nat
deriving DecidableEq, Repr

/-- The mean of a tensor (`Tensor.mean`); the empty case normalises
`0 / 0 = 0` in `ℚ`. -/
def listMean (l : List ℚ) : ℚ := l.sum / (l.length : ℚ)

/-- Population variance (`Tensor.std(unbiased=False)` squared). -/
def listVar (l : List ℚ) : ℚ :=
  listMean (l.map (fun a => (a - listMean l) ^ 2))

/-- The discounted-return loop of `replay`: iterate the reversed
(reward, done) pairs, resetting the accumulator at each `done` flag, and
build the list via `insert(0, R)`. -/
def computeReturns (gamma : ℚ) (rds : List (ℚ × Bool)) : List ℚ :=
  (rds.reverse.foldl
    (fun acc rd =>
      let R := if rd.2 then 0 else acc.1
      let R := rd.1 + gamma * R
      (R, R :: acc.2))
    ((0 : ℚ), ([] : List ℚ))).2

/-- The values `replay` computes and returns: the cleared buffer, the
per-transition discounted returns and normalised advantages fed to the
(opaque) clipped-surrogate loss, and the diagnostic triple. -/
structure ReplayResult where
  memory : List Transition
  returns : List ℚ
  advantages : List ℚ
  approx_kl : ℚ
  clipfrac : ℚ
  mean_entropy : ℚ
deriving DecidableEq, Repr

/-- `GameBot.replay`: `None` when fewer than `batch_size` transitions are
buffered; otherwise clear the buffer, compute per-episode discounted
returns, advantages (return minus stored value plus stored extra
advantage), normalise them over the batch by `(a - mean) / (std + 1e-6)`,
and report approximate KL, clip fraction and the mean stored entropy. -/
def replay (h : GameBotHyper) (rsqrt rexp : ℚ → ℚ)
    (new_log_probs : List ℚ) (memory : List Transition) :
    Option ReplayResult :=
  if memory.length < h.batch_size then none
  else
    let rewards := memory.map (fun t => t.reward)
    let dones := memory.map (fun t => t.done)
    let olds := memory.map (fun t => t.log_prob)
    let ents := memory.map (fun t => t.entropy)
    let returns := computeReturns h.gamma (rewards.zip dones)
    let advRaw := List.zipWith
      (fun R t => R - t.value + t.extra_advantage) returns memory
    let advMean := listMean advRaw
    let advStd := rsqrt (listVar advRaw)
    let adv := advRaw.map (fun a => (a - advMean) / (advStd + 1e-6))
    let approx_kl := listMean
      (List.zipWith (fun o n => o - n) olds new_log_probs)
    let ratios := List.zipWith (fun n o => rexp (n - o)) new_log_probs olds
    let clipped := ratios.filter
      (fun r => 1 + h.clip_eps < r ∨ r < 1 - h.clip_eps)
    let clipfrac := (clipped.length : ℚ) / (ratios.length : ℚ)
    some { memory := [], returns := returns, advantages := adv,
           approx_kl := approx_kl, clipfrac := clipfrac,
           mean_entropy := listMean ents }

/-! Section: board geometry of `GameEnvironment`
(`_generate_track`, entrance/start/home-stretch tables, and the
track-arithmetic helpers, `ai/environment.py` lines 70-244). -/

/-- `_generate_track`: the 72-cell circular outer track. -/
def generate_track : List Pos :=
  ((List.range 19).map (fun c => ⟨0, (c : Int)⟩))
    ++ ((List.range' 1 18).map (fun r => ⟨(r : Int), 18⟩))
    ++ (((List.range 18).reverse).map (fun c => ⟨18, (c : Int)⟩))
    ++ (((List.range' 1 17).reverse).map (fun r => ⟨(r : Int), 0⟩))

/-- `self._entrances`: home-stretch entrance squares per seat. -/
def entrances : List Pos := [⟨0, 4⟩, ⟨4, 18⟩, ⟨18, 14⟩, ⟨14, 0⟩]

/-- `self._starts`: starting squares when leaving the penalty zone. -/
def starts : List Pos := [⟨0, 8⟩, ⟨8, 18⟩, ⟨18, 10⟩, ⟨10, 0⟩]

/-- `self._home_stretches`: home-stretch cells per seat. -/
def home_stretches : List (List Pos) :=
  [ [⟨1, 4⟩, ⟨2, 4⟩, ⟨3, 4⟩, ⟨4, 4⟩, ⟨5, 4⟩],
    [⟨4, 17⟩, ⟨4, 16⟩, ⟨4, 15⟩, ⟨4, 14⟩, ⟨4, 13⟩],
    [⟨17, 14⟩, ⟨16, 14⟩, ⟨15, 14⟩, ⟨14, 14⟩, ⟨13, 14⟩],
    [⟨14, 1⟩, ⟨14, 2⟩, ⟨14, 3⟩, ⟨14, 4⟩, ⟨14, 5⟩] ]

/-- `_steps_to_entrance`: forward distance along the circular track from
`pos` to the seat's entrance, `-1` when either square is off the track.
(Gate indices are looked up with a default for out-of-range seats; the
source is only called with seats 0-3.) -/
def steps_to_entrance (pos : Pos) (player_id : Nat) : Int :=
  let entrance := entrances.getD player_id ⟨0, 0⟩
  match generate_track.findIdx? (fun q => q == pos),
        generate_track.findIdx? (fun q => q == entrance) with
  | some si, some ei =>
    ((ei : Int) - (si : Int) + (generate_track.length : Int)) %
      (generate_track.length : Int)
  | _, _ => -1

/-- `_track_index`: index of `pos` along the outer track or `-1`. -/
def track_index (pos : Pos) : Int :=
  match generate_track.findIdx? (fun q => q == pos) with
  | some i => (i : Int)
  | none => -1

/-- `_home_index`: index of `pos` within the seat's home stretch or `-1`. -/
def home_index (pos : Pos) (player_id : Nat) : Int :=
  if player_id < home_stretches.length then
    match (home_stretches.getD player_id []).findIdx? (fun q => q == pos) with
    | some i => (i : Int)
    | none => -1
  else -1

/-- `_in_entry_zone`: within 10 forward steps of the seat's entrance. -/
def in_entry_zone (pos : Pos) (player_id : Nat) : Bool :=
  let steps := steps_to_entrance pos player_id
  decide (0 ≤ steps ∧ steps ≤ 10)

/-- `_is_start_square`. -/
def is_start_square (pos : Pos) (player_id : Nat) : Bool :=
  pos == starts.getD player_id ⟨0, 0⟩

/-- Python list indexing on `HOME_ENTRY_REWARDS`-style lists: a negative
index counts from the end (only indices in `[-len, len)` are ever produced
by the source: `home_index` yields values in `[-1, 4]`). -/
def pyIndex (l : List ℚ) (i : Int) : ℚ :=
  if 0 ≤ i then l.getD i.toNat 0
  else l.getD (l.length - (-i).toNat) 0

/-! Section: the reward-event ledgers and the `GameEnvironment` state
(`__init__` fields read or written by `reset`/`step`). -/

/-- `self.reward_event_counts`. -/
structure RewardCounts where
  valid_move : Nat := 0
  invalid_move : Nat := 0
  home_entry : Nat := 0
  penalty_exit : Nat := 0
  capture : Nat := 0
  enemy_home_entry : Nat := 0
  game_win : Nat := 0
  no_home_penalty : Nat := 0
  avoid_home_penalty : Nat := 0
  completion : Nat := 0
  completion_delay : Nat := 0
  timeout : Nat := 0
deriving DecidableEq, Repr

/-- `self.reward_event_totals`. -/
structure RewardTotals where
  valid_move : ℚ := 0
  invalid_move : ℚ := 0
  home_entry : ℚ := 0
  penalty_exit : ℚ := 0
  capture : ℚ := 0
  enemy_home_entry : ℚ := 0
  game_win : ℚ := 0
  no_home_penalty : ℚ := 0
  avoid_home_penalty : ℚ := 0
  completion : ℚ := 0
  completion_delay : ℚ := 0
  timeout : ℚ := 0
deriving DecidableEq, Repr

/-- The signed sum of all `reward_event_totals` buckets. -/
def totalsSum (t : RewardTotals) : ℚ :=
  t.valid_move + t.invalid_move + t.home_entry + t.penalty_exit + t.capture +
    t.enemy_home_entry + t.game_win + t.no_home_penalty +
    t.avoid_home_penalty + t.completion + t.completion_delay + t.timeout

/-- `self.reward_bonus_totals`. -/
structure BonusTotals where
  win_bonus : ℚ := 0
  final_move_bonus : ℚ := 0
deriving DecidableEq, Repr

/-- The signed sum of the bonus ledger. -/
def bonusSum (b : BonusTotals) : ℚ := b.win_bonus + b.final_move_bonus

/-- `self.heavy_reward_breakdown`. -/
structure HeavyBreakdown where
  home_entry : Nat := 0
  penalty_exit : Nat := 0
  capture : Nat := 0
  special : Nat := 0
deriving DecidableEq, Repr

/-- One entry of `self.no_progress_steps`. -/
structure NoProgress where
  general : Nat := 0
  since_two : Nat := 0
deriving DecidableEq, Repr

/-- `self.last_step_info` (only the keys `step`/`train_episode` read). -/
structure LastStepInfo where
  win_bonus : Option ℚ := none
  final_move_bonus : Option ℚ := none
  was_final : Bool := false
deriving DecidableEq, Repr

/-- The fields of `GameEnvironment` read or written by `reset` and `step`
(defaults are the `__init__` values). -/
structure Env where
  game_state : Option GameState := none
  pieces_per_player : Nat := 5
  turn_limit : Nat := 550
  heavy_reward : ℚ := HEAVY_REWARD_BASE
  win_bonus : ℚ := WIN_BONUS
  reward_event_counts : RewardCounts := {}
  reward_event_totals : RewardTotals := {}
  reward_bonus_totals : BonusTotals := {}
  heavy_reward_events : Nat := 0
  heavy_reward_breakdown : HeavyBreakdown := {}
  player_team_map : List (Nat × Nat) := []
  pending_penalties : List ℚ := [0, 0, 0, 0]
  next_penalty_check : Nat := 60
  completion_delay_turns : List Nat := [0, 0]
  completion_delay_growth : List ℚ :=
    [COMPLETION_DELAY_GROWTH, COMPLETION_DELAY_GROWTH]
  no_progress_steps : List NoProgress := [{}, {}, {}, {}]
  last_step_info : LastStepInfo := {}
  move_history : List (String × GameState) := []
deriving DecidableEq, Repr

/-- `dict.get(k)` on `self.player_team_map` (later assignments shadow
earlier ones, hence lookup on the most recent binding). -/
def mapGet? (m : List (Nat × Nat)) (k : Nat) : Option Nat :=
  (m.find? (fun p => p.1 == k)).map (fun p => p.2)

/-- `dict.get(k, d)` on `self.player_team_map`. -/
def mapGetD (m : List (Nat × Nat)) (k d : Nat) : Nat :=
  (mapGet? m k).getD d

/-- `GameEnvironment.count_completed_pieces`. -/
def count_completed_pieces (gs : Option GameState) (player_id : Nat) : Nat :=
  let pieces : List Piece := match gs with | some g => g.pieces | none => []
  (pieces.filter (fun p => p.playerId == player_id && p.completed)).length

/-- `GameEnvironment.get_completed_counts`. -/
def get_completed_counts (gs : Option GameState) : List Nat :=
  (List.range 4).map (fun pid => count_completed_pieces gs pid)

/-- `GameEnvironment.reset_reward_events`. -/
def reset_reward_events (env : Env) : Env :=
  { env with
    reward_event_counts := {}
    reward_event_totals := {}
    reward_bonus_totals := {}
    heavy_reward_events := 0
    heavy_reward_breakdown := {}
    pending_penalties := [0, 0, 0, 0]
    next_penalty_check := 60
    completion_delay_turns := [0, 0]
    no_progress_steps := [{}, {}, {}, {}]
    last_step_info := {} }

/-- The state mutation of `GameEnvironment.reset` on a successful reset
response (`ai/environment.py` lines 408-427; process startup and the
returned observation vector are not modelled).  On a failed reset only an
error is logged and the state is kept. -/
def applyReset (env : Env) (response : EngineResponse) : Env :=
  if response.success.getD false then
    let gs0 := response.gameState.getD {}
    let gs : GameState :=
      { gs0 with gameEnded := false, winningTeam := response.winningTeam }
    let env := { env with game_state := some gs, move_history := [] }
    let env := reset_reward_events env
    let teams := gs.teams
    let ptm := teams.enum.foldl
      (fun m it =>
        it.2.foldl
          (fun m pl =>
            match pl.position with
            | some pos => (pos, it.1) :: m
            | none => m)
          m)
      ([] : List (Nat × Nat))
    { env with
      player_team_map := ptm
      pending_penalties := [0, 0, 0, 0]
      next_penalty_check := 60
      completion_delay_turns := List.replicate (max teams.length 2) 0 }
  else env

/-! Section: `_default_discards` and `get_valid_actions`
(`ai/environment.py` lines 489-538). -/

/-- `GameEnvironment._default_discards`: synthesise discard action ids from
the cached hand size. -/
def default_discards (gs : Option GameState) (player_id : Nat) : List Int :=
  let players := match gs with | some g => g.players | none => []
  if player_id < players.length then
    let cards := (players.getD player_id ⟨0⟩).cards
    (List.range (min cards 10)).map (fun i => ((70 + i : Nat) : Int))
  else []

/-- First-occurrence deduplication, as in the `unique_actions` loop. -/
def pyUnique (l : List Int) : List Int :=
  l.foldl (fun acc a => if a ∈ acc then acc else acc ++ [a]) []

/-- `GameEnvironment.get_valid_actions`: query the wrapper, filter the
returned ids to the 80-action space re-validating each live (the inner
`is_action_valid` calls consume oracle entries), fall back to the first
returned discard id or the first synthesised default discard, and
deduplicate preserving order. -/
def get_valid_actions (gs : Option GameState) (player_id : Nat)
    (o : Oracle) : List Int × Oracle :=
  let so := sendO o
  let response := so.1
  let o := so.2
  if response.error.isSome then
    ((default_discards gs player_id).take 1, o)
  else
    let actions := response.validActions.getD []
    let fo := actions.foldl
      (fun (acc : List Int × Oracle) act =>
        if 0 ≤ act ∧ act < 80 then
          let vo := is_action_valid acc.2
          ((if vo.1 then acc.1 ++ [act] else acc.1), vo.2)
        else acc)
      (([] : List Int), o)
    let filtered := fo.1
    let o := fo.2
    if filtered.isEmpty then
      let discard_actions := actions.filter (fun a => 70 ≤ a)
      if ¬discard_actions.isEmpty then (discard_actions.take 1, o)
      else ((default_discards gs player_id).take 1, o)
    else (pyUnique filtered, o)

/-! Section: the action-resolution retry loop of `GameEnvironment.step`
(`ai/environment.py` lines 632-705).  The loop state carries two ghost
logs that do not influence behaviour: `attempts`, the actions actually
sent as `makeMove`/`makeSpecialMove` commands (in order), and
`candidates`, the successive `get_valid_actions` return values. -/

/-- The loop-local variables of the retry chain inside `step`. -/
structure LoopSt where
  action : Int
  tried : List Int
  invalid_attempts : Nat
  attempts : List Int
  candidates : List (List Int)
  response : Option EngineResponse
  oracle : Oracle
deriving Repr

/-- The fallback discard sequence computed when no untried specific action
remains: untried returned discards if any, else the untried part of the
fixed band `range(70, 80)`. -/
def discardSelection (va : List Int) (tried : List Int) : List Int :=
  let ds := va.filter (fun a => 70 ≤ a ∧ a ∉ tried)
  if ds.isEmpty then
    ((List.range' 70 10).map (fun n => (n : Int))).filter (fun d => d ∉ tried)
  else ds

/-- The inner `for discard in discard_actions` submission loop: try each
discard in order, stopping at the first success; the branch entered after a
failed `makeMove` additionally counts each failed discard as an invalid
attempt (`incInvalid`). -/
def innerDiscard (incInvalid : Bool) : List Int → LoopSt → LoopSt
  | [], st => st
  | d :: ds, st =>
    let st := { st with tried := st.tried.insert d,
                        attempts := st.attempts ++ [d] }
    let so := sendO st.oracle
    let st := { st with response := some so.1, oracle := so.2 }
    if so.1.success.getD false then st
    else
      let st :=
        if incInvalid then
          { st with invalid_attempts := st.invalid_attempts + 1 }
        else st
      innerDiscard incInvalid ds st

/-- The shared tail of both failure branches of the retry chain (lines
636-659 and 680-705 have the same shape): consult `get_valid_actions`,
move to the first untried alternative (continuing the loop through `k`),
or — with no alternative left — run the discard submission loop and stop. -/
def consultAlternatives (gs : Option GameState) (player_id : Nat)
    (incInner : Bool) (st2 : LoopSt) (k : LoopSt → Option LoopSt) :
    Option LoopSt :=
  let gva := get_valid_actions gs player_id st2.oracle
  let st3 := { st2 with oracle := gva.2,
                        candidates := st2.candidates ++ [gva.1] }
  let alt := gva.1.filter (fun a => a ∉ st3.tried)
  if alt.isEmpty then
    some (innerDiscard incInner (discardSelection gva.1 st3.tried) st3)
  else k { st3 with action := alt.headI }

/-- The `while True` retry chain of `step`, with explicit fuel (the wrapper
`runRetryLoop` supplies enough fuel for the loop to always finish; the
`none` result marks exhausted fuel and is proved unreachable). -/
def retryLoop (gs : Option GameState) (player_id : Nat) :
    Nat → LoopSt → Option LoopSt
  | 0, _ => none
  | Nat.succ fuel, st =>
    let iv := is_action_valid st.oracle
    let st1 := { st with oracle := iv.2 }
    if ¬iv.1 then
      consultAlternatives gs player_id false
        { st1 with invalid_attempts := st1.invalid_attempts + 1,
                   tried := st1.tried.insert st1.action }
        (retryLoop gs player_id fuel)
    else
      let so := sendO st1.oracle
      let st2 := { st1 with oracle := so.2, response := some so.1,
                            tried := st1.tried.insert st1.action,
                            attempts := st1.attempts ++ [st1.action] }
      if so.1.success.getD false then some st2
      else
        consultAlternatives gs player_id true
          { st2 with invalid_attempts := st2.invalid_attempts + 1 }
          (retryLoop gs player_id fuel)

/-- The retry chain entered with the requested action and a fresh loop
state.  `2 * |oracle| + 2` fuel always suffices (proved below). -/
def runRetryLoop (gs : Option GameState) (player_id : Nat) (action : Int)
    (o : Oracle) : Option LoopSt :=
  retryLoop gs player_id (2 * o.length + 2)
    { action := action, tried := [], invalid_attempts := 0, attempts := [],
      candidates := [], response := none, oracle := o }

/-! Section: the reward computation of `GameEnvironment.step`
(`ai/environment.py` lines 556-1154).  `step` returns `none` exactly where
the Python source would raise: when the retry loop can exit with the local
`response` unbound (all ten band discards already tried), and on the
capture branch that indexes `self._starts` with the absent
`prev_info['player_id']` key (`None`). -/

/-- The per-piece snapshot stored in `prev_pieces` before the move
(dict keys `'pos'`, `'in_home'`, `'in_penalty'`, `'completed'`, `'dist'`;
note there is no `'player_id'` key). -/
structure PrevInfo where
  pos : Pos
  in_home : Bool
  in_penalty : Bool
  completed : Bool
  dist : Int
deriving DecidableEq, Repr

/-- `prev_pieces.get(pid)`. -/
def prevLookup (m : List (Nat × PrevInfo)) (k : Nat) : Option PrevInfo :=
  (m.find? (fun p => p.1 == k)).map (fun p => p.2)

/-- Lines 579-594: snapshot the acting seat's pieces and collect the
occupied home-stretch indices (piece ids are distinct in engine states, so
insertion-ordered association lists model the dicts). -/
def buildPrev (pieces : List Piece) (player_id : Nat) :
    List (Nat × PrevInfo) × List Int :=
  pieces.foldl
    (fun acc p =>
      if p.playerId == player_id then
        let info : PrevInfo :=
          { pos := p.position, in_home := p.inHomeStretch,
            in_penalty := p.inPenaltyZone, completed := p.completed,
            dist := steps_to_entrance p.position player_id }
        let occ :=
          if p.inHomeStretch || p.completed then
            let idx := home_index p.position player_id
            if idx ≠ -1 then acc.2 ++ [idx] else acc.2
          else acc.2
        (acc.1 ++ [(p.id, info)], occ)
      else acc)
    (([] : List (Nat × PrevInfo)), ([] : List Int))

/-- Lines 597-600 (and 1091-1094): fold per-player completion counts into
per-team totals over a `[0] * max(len(teams), 2)` base. -/
def teamCompleted (ptm : List (Nat × Nat)) (counts : List Nat)
    (nteams : Nat) : List Nat :=
  counts.enum.foldl
    (fun acc pc =>
      match mapGet? ptm pc.1 with
      | some t => if t < acc.length then acc.set t (acc.getD t 0 + pc.2) else acc
      | none => acc)
    (List.replicate (max nteams 2) 0)

/-- Lines 601-606: highest unoccupied home-stretch index, scanning from the
top; defaults to `home_len - 1` when every index is occupied. -/
def farthestBefore (home_len : Nat) (occupied : List Int) : Int :=
  match ((List.range home_len).reverse).find?
      (fun i => ¬ ((i : Int) ∈ occupied)) with
  | some i => (i : Int)
  | none => (home_len : Int) - 1

/-- Truthiness of `response.get('captures')`. -/
def capturesTruthy (r : EngineResponse) : Bool :=
  match r.captures with
  | some l => ¬l.isEmpty
  | none => false

/-- Context fixed during the per-piece loop of `step`. -/
structure StepCtx where
  player_id : Nat
  partner_id : Option Nat
  prev_pieces : List (Nat × PrevInfo)
  farthest_before : Int
  capsTruthy : Bool
deriving Repr

/-- The loop accumulators of the per-piece pass (lines 756-765), with the
environment (heavy-reward and penalty-exit counters) and running reward. -/
structure PieceAcc where
  env : Env
  reward : ℚ
  skip_decay : Bool
  changed_my : List Nat := []
  home_split : Bool := false
  prev_near_home : List (Nat × Bool) := []
  progress_made : Bool := false
  left_entry : Bool := false
  player_home : Nat := 0
  enemy_home : Nat := 0
  home_reward_sum : ℚ := 0
deriving Repr

/-- The body of the per-piece loop of `step` (lines 766-900), applied to
each piece of the updated game state in order. -/
def pieceFold (ctx : StepCtx) (acc : PieceAcc) (p : Piece) : PieceAcc :=
  if p.id = 0 then acc
  else
    let player_id := ctx.player_id
    let owner := p.playerId
    let now_penalty := p.inPenaltyZone
    let pos := p.position
    let near :=
      if ¬now_penalty ∧ ¬p.inHomeStretch ∧ ¬p.completed then
        let steps := steps_to_entrance pos owner
        decide (0 ≤ steps ∧ steps ≤ 10)
      else false
    let prev_info := prevLookup ctx.prev_pieces p.id
    let was_near :=
      ((acc.prev_near_home.find? (fun q => q.1 == p.id)).map
        (fun q => q.2)).getD false
    let acc :=
      if owner = player_id then
        let skip1 :=
          match ctx.partner_id with
          | some pr => is_start_square pos pr
          | none => false
        let skip2 := in_entry_zone pos player_id
        let le :=
          match prev_info with
          | some pi =>
            decide (pi.dist ≤ 10) && !pi.in_home && !p.inHomeStretch &&
              !in_entry_zone pos player_id
          | none => false
        { acc with skip_decay := acc.skip_decay || skip1 || skip2,
                   left_entry := acc.left_entry || le }
      else acc
    let acc :=
      if owner = player_id ∧
          (match prev_info with
           | some pi => decide (10 < pi.dist)
           | none => false) = true ∧ near then
        { acc with progress_made := true }
      else acc
    let acc :=
      match prev_info with
      | some pi =>
        if owner = player_id ∧ pi.pos ≠ pos then
          let hs :=
            (!pi.in_home && p.inHomeStretch) ||
              (pi.in_home && p.inHomeStretch && p.position != pi.pos)
          { acc with changed_my := acc.changed_my.insert p.id,
                     home_split := acc.home_split || hs }
        else acc
      | none => acc
    let acc :=
      match prev_info with
      | some pi =>
        if ¬now_penalty ∧ ¬p.completed then
          let prev_idx := track_index pi.pos
          let tidx := track_index pos
          if prev_idx ≠ -1 ∧ tidx ≠ -1 then
            let forward := (tidx - prev_idx) % (generate_track.length : Int)
            let backward := (prev_idx - tidx) % (generate_track.length : Int)
            let moved_forward := forward ≤ backward
            let prev_steps := steps_to_entrance pi.pos owner
            if moved_forward ∧ 0 < prev_steps ∧ prev_steps ≤ 6 ∧
                prev_steps < forward ∧ ¬p.inHomeStretch then
              { acc with reward := acc.reward - 0.6 }
            else acc
          else acc
        else acc
      | none => acc
    let acc :=
      if owner = player_id then
        match prev_info with
        | some pi =>
          if ¬pi.in_penalty ∧ now_penalty then
            { acc with reward := acc.reward - 0.5 }
          else acc
        | none => acc
      else acc
    let acc :=
      match prev_info with
      | some pi =>
        let acc :=
          if ¬pi.in_home ∧ p.inHomeStretch ∧ owner = player_id then
            let home_idx := home_index pos owner
            let base := pyIndex HOME_ENTRY_REWARDS home_idx
            { acc with home_reward_sum := acc.home_reward_sum + base * 0.1,
                       progress_made := true }
          else acc
        let acc :=
          if pi.in_penalty ∧ ¬now_penalty ∧
              pos = starts.getD owner ⟨0, 0⟩ ∧ ctx.capsTruthy then
            { acc with
              reward := acc.reward + acc.env.heavy_reward,
              env := { acc.env with
                heavy_reward_events := acc.env.heavy_reward_events + 1,
                reward_event_counts := { acc.env.reward_event_counts with
                  penalty_exit :=
                    acc.env.reward_event_counts.penalty_exit + 1 } },
              progress_made := true }
          else acc
        let old_idx :=
          if pi.in_home || pi.completed then home_index pi.pos owner else -1
        let home_idx :=
          if p.inHomeStretch || p.completed then home_index pos owner else -1
        let acc :=
          if ¬pi.in_home ∧ p.inHomeStretch then
            let base := pyIndex HOME_ENTRY_REWARDS home_idx
            { acc with home_reward_sum := acc.home_reward_sum + base * 0.1,
                       progress_made := true }
          else if pi.in_home ∧ p.inHomeStretch ∧ old_idx ≠ home_idx then
            { acc with progress_made := true }
          else acc
        let acc :=
          if ¬pi.completed ∧ p.completed then
            let base := pyIndex HOME_ENTRY_REWARDS home_idx
            let bonus := base * 0.2
            let bonus :=
              if home_idx = ctx.farthest_before then bonus * 1.5 else bonus
            { acc with home_reward_sum := acc.home_reward_sum + bonus,
                       progress_made := true, skip_decay := true }
          else acc
        acc
      | none => acc
    let acc :=
      { acc with prev_near_home := acc.prev_near_home ++ [(p.id, was_near)] }
    if p.inHomeStretch then
      if owner = player_id then { acc with player_home := acc.player_home + 1 }
      else { acc with enemy_home := acc.enemy_home + 1 }
    else acc

/-- The `for cap in response.get('captures', [])` loop (lines 919-949).
`owner = prev_info_cap.get('player_id')` is always `None` (the snapshots
carry no such key), so `owner in my_team` holds exactly when the team list
contains a seat-less member, and the in-team branch that evaluates
`self._starts[owner]` raises `TypeError` (`none` result). -/
def capturesGo (player_id : Nat) (my_team : List (Option Nat))
    (prev_pieces : List (Nat × PrevInfo)) (near_map : List (Nat × Bool))
    (total_caps : Nat) :
    List Capture → Env × ℚ × Bool → Option (Env × ℚ × Bool)
  | [], acc => some acc
  | cap :: rest, (env, reward, skip) =>
    match prevLookup prev_pieces cap.pieceId with
    | none => capturesGo player_id my_team prev_pieces near_map total_caps
        rest (env, reward, skip)
    | some pic =>
      let near :=
        ((near_map.find? (fun q => q.1 == cap.pieceId)).map
          (fun q => q.2)).getD false
      if my_team.contains none then
        if in_entry_zone pic.pos player_id then
          let er :=
            if 1 < total_caps then
              ({ env with
                 heavy_reward_events := env.heavy_reward_events + 1 },
               reward + env.heavy_reward * 1.5)
            else (env, reward)
          let env := { er.1 with reward_event_counts :=
            { er.1.reward_event_counts with
              capture := er.1.reward_event_counts.capture + 1 } }
          capturesGo player_id my_team prev_pieces near_map total_caps
            rest (env, er.2, skip)
        else none
      else
        let reward := reward + (if near then (0.6 : ℚ) else 0.2)
        let skip := skip || in_entry_zone pic.pos player_id
        let env := { env with reward_event_counts :=
          { env.reward_event_counts with
            capture := env.reward_event_counts.capture + 1 } }
        capturesGo player_id my_team prev_pieces near_map total_caps
          rest (env, reward, skip)

/-- A `no_progress_steps[player_id]` update helper (the source mutates the
dict in place). -/
def setNoProgress (env : Env) (player_id : Nat) (e : NoProgress) : Env :=
  { env with no_progress_steps := env.no_progress_steps.set player_id e }

/-- Lines 990-992: on a successful move, pay the accumulated home-entry
reward sum into the `home_entry` ledger bucket and into the reward. -/
def applyHomeEntryLedger (env : Env) (home_reward_sum reward : ℚ) :
    Env × ℚ :=
  if home_reward_sum ≠ 0 then
    ({ env with reward_event_totals :=
       { env.reward_event_totals with home_entry :=
         env.reward_event_totals.home_entry + home_reward_sum } },
     reward + home_reward_sum)
  else (env, reward)

/-- The `if 'gameState' in response:` block of `step` (lines 737-1081):
adopt the new game state, run the per-piece reward pass, the capture pass,
the special-move bonuses, the success-gated decay/stagnation penalties, the
completion bonus, the pulled-away-from-entrance penalty, and the periodic
no-home team check.  Returns the updated environment, running reward,
`skip_decay`, and `extra_delay`, or `none` where the source raises. -/
def gameStateBlock (env : Env) (response : EngineResponse)
    (gsRaw : GameState) (player_id step_count : Nat) (action : Int)
    (done : Bool) (prev_pieces : List (Nat × PrevInfo))
    (my_team : List (Option Nat)) (partner_id : Option Nat)
    (prev_player_home prev_enemy_home : Nat)
    (prev_completed_players : List Nat) (farthest_before : Int)
    (reward : ℚ) (p12 p105 : Nat → ℚ) :
    Option (Env × ℚ × Bool × Nat) :=
  let gs1 : GameState :=
    { gsRaw with gameEnded := done, winningTeam := response.winningTeam,
                 statsHeavy :=
                   if response.hasStats then some env.heavy_reward_events
                   else gsRaw.statsHeavy }
  let env := { env with game_state := some gs1 }
  let env :=
    match gs1.lastMove with
    | some mv => { env with move_history := env.move_history ++ [(mv, gs1)] }
    | none => env
  let ctx : StepCtx :=
    { player_id := player_id, partner_id := partner_id,
      prev_pieces := prev_pieces, farthest_before := farthest_before,
      capsTruthy := capturesTruthy response }
  let acc := gs1.pieces.foldl (pieceFold ctx)
    { env := env, reward := reward, skip_decay := false }
  let env := acc.env
  let reward := acc.reward
  let extra_delay : Nat := if acc.left_entry then 1 else 0
  let caps := response.captures.getD []
  match capturesGo player_id my_team prev_pieces acc.prev_near_home
      caps.length caps (env, reward, acc.skip_decay) with
  | none => none
  | some (env, reward, skip_decay) =>
    let er :=
      if (60 : Int) ≤ action then
        let er :=
          if 2 ≤ acc.changed_my.length then
            let bonus := env.heavy_reward
            let bonus := if acc.home_split then bonus * 1.5 else bonus
            ({ env with
               heavy_reward_events := env.heavy_reward_events + 1,
               heavy_reward_breakdown := { env.heavy_reward_breakdown with
                 special := env.heavy_reward_breakdown.special + 1 } },
             reward + bonus)
          else (env, reward)
        let env := er.1
        let reward := er.2
        let moved_home := (gs1.pieces.filter (fun p =>
          decide (p.id ≠ 0) &&
            (match prevLookup prev_pieces p.id with
             | some pi =>
               pi.in_home && p.inHomeStretch && !p.completed &&
                 p.position != pi.pos && my_team.contains (some p.playerId)
             | none => false))).length
        if 2 ≤ moved_home then
          ({ env with heavy_reward_events := env.heavy_reward_events + 1 },
           reward + env.heavy_reward)
        else (env, reward)
      else (env, reward)
    let env := er.1
    let reward := er.2
    let opp_hits := ((List.range 4).filter
        (fun opp => ¬my_team.contains (some opp))).foldl
      (fun n opp =>
        n + (gs1.pieces.filter (fun piece =>
          piece.playerId == player_id &&
            is_start_square piece.position opp)).length)
      0
    let reward := reward - 0.3 * (opp_hits : ℚ)
    let er :=
      if response.success.getD false then
        let er := applyHomeEntryLedger env acc.home_reward_sum reward
        let env := er.1
        let reward := er.2
        let er :=
          if prev_player_home < acc.player_home then
            ({ env with reward_event_counts :=
               { env.reward_event_counts with home_entry :=
                 env.reward_event_counts.home_entry +
                   (acc.player_home - prev_player_home) } },
             reward)
          else
            let dp := 0.005 * p12 step_count
            ({ env with
               reward_event_counts := { env.reward_event_counts with
                 valid_move := env.reward_event_counts.valid_move + 1 },
               reward_event_totals := { env.reward_event_totals with
                 valid_move := env.reward_event_totals.valid_move + (-dp) } },
             reward - dp)
        let env := er.1
        let reward := er.2
        if ¬acc.progress_made then
          let reward := reward - 0.01 * p105 step_count
          if player_id < env.no_progress_steps.length then
            let entry := env.no_progress_steps.getD player_id {}
            let g := entry.general + 1
            if 20 ≤ g then
              (setNoProgress env player_id { entry with general := 0 },
               reward + STAGNATION_PENALTY)
            else
              (setNoProgress env player_id { entry with general := g }, reward)
          else (env, reward)
        else
          if player_id < env.no_progress_steps.length then
            let entry := env.no_progress_steps.getD player_id {}
            (setNoProgress env player_id { entry with general := 0 }, reward)
          else (env, reward)
      else (env, reward)
    let env := er.1
    let reward := er.2
    let er :=
      if prev_enemy_home < acc.enemy_home then
        let penalty := -5.0 * (acc.enemy_home : ℚ)
        ({ env with
           reward_event_counts := { env.reward_event_counts with
             enemy_home_entry := env.reward_event_counts.enemy_home_entry +
               (acc.enemy_home - prev_enemy_home) },
           reward_event_totals := { env.reward_event_totals with
             enemy_home_entry :=
               env.reward_event_totals.enemy_home_entry + penalty } },
         reward + penalty)
      else (env, reward)
    let env := er.1
    let reward := er.2
    let player_total :=
      (gs1.pieces.filter (fun p => p.playerId == player_id)).length
    let after_completed := count_completed_pieces (some gs1) player_id
    let before_completed := prev_completed_players.getD player_id 0
    let er :=
      if player_total ≠ 0 ∧ after_completed = player_total ∧
          before_completed < after_completed then
        ({ env with
           reward_event_counts := { env.reward_event_counts with
             completion := env.reward_event_counts.completion + 1 },
           reward_event_totals := { env.reward_event_totals with
             completion :=
               env.reward_event_totals.completion + COMPLETION_BONUS } },
         reward + COMPLETION_BONUS)
      else (env, reward)
    let env := er.1
    let reward := er.2
    let er :=
      if player_id < env.no_progress_steps.length then
        let entry := env.no_progress_steps.getD player_id {}
        if 2 ≤ after_completed then
          if acc.player_home ≤ prev_player_home ∧
              after_completed = before_completed then
            let s := entry.since_two + 1
            if 40 ≤ s then
              (setNoProgress env player_id { entry with since_two := 0 },
               reward + LATE_STAGNATION_PENALTY)
            else
              (setNoProgress env player_id { entry with since_two := s },
               reward)
          else
            (setNoProgress env player_id { entry with since_two := 0 }, reward)
        else
          (setNoProgress env player_id { entry with since_two := 0 }, reward)
      else (env, reward)
    let env := er.1
    let reward := er.2
    let hit := prev_pieces.find? (fun pr =>
      match gs1.pieces.find? (fun p => p.id == pr.1) with
      | none => false
      | some newp =>
        if newp.inHomeStretch || pr.2.in_home then false
        else if pr.2.in_penalty || pr.2.completed then false
        else
          let bf := pr.2.dist
          let af := steps_to_entrance newp.position player_id
          decide (0 < bf ∧ bf ≤ 3 ∧ (af = -1 ∨ bf < af)))
    let er :=
      if hit.isSome then
        ({ env with
           reward_event_counts := { env.reward_event_counts with
             avoid_home_penalty :=
               env.reward_event_counts.avoid_home_penalty + 1 },
           reward_event_totals := { env.reward_event_totals with
             avoid_home_penalty :=
               env.reward_event_totals.avoid_home_penalty + (-60.0) } },
         reward - 60.0)
      else (env, reward)
    let env := er.1
    let reward := er.2
    let env :=
      if env.next_penalty_check ≤ step_count then
        let env := gs1.teams.foldl
          (fun env team =>
            let team_players := team.map (fun pl => pl.position)
            let home_present := gs1.pieces.any (fun p =>
              p.inHomeStretch && team_players.contains (some p.playerId))
            if ¬home_present then
              team_players.foldl
                (fun env pid? =>
                  match pid? with
                  | some pid =>
                    if pid < env.pending_penalties.length then
                      let pp := env.pending_penalties.set pid
                        ((env.pending_penalties.getD pid 0) - 60.0)
                      { env with pending_penalties := pp }
                    else env
                  | none => env)
                env
            else env)
          env
        { env with next_penalty_check := env.next_penalty_check + 60 }
      else env
    some (env, reward, skip_decay, extra_delay)

/-- Lines 609-613: pay out any pending no-home-team penalty owed to this
seat and move it into the `no_home_penalty` ledger bucket. -/
def applyPendingPenalty (env : Env) (player_id : Nat) : Env × ℚ :=
  let pp := env.pending_penalties.getD player_id 0
  if player_id < env.pending_penalties.length ∧ pp ≠ 0 then
    ({ env with
       reward_event_counts := { env.reward_event_counts with
         no_home_penalty := env.reward_event_counts.no_home_penalty + 1 },
       reward_event_totals := { env.reward_event_totals with
         no_home_penalty := env.reward_event_totals.no_home_penalty + pp },
       pending_penalties := env.pending_penalties.set player_id 0 },
     pp)
  else (env, (0 : ℚ))

/-- Lines 708-711: the invalid-attempt penalty and its ledger entry. -/
def applyInvalidPenalty (env : Env) (invalid_attempts : Nat) (reward : ℚ) :
    Env × ℚ :=
  let reward := reward + INVALID_MOVE_PENALTY * (invalid_attempts : ℚ)
  if invalid_attempts ≠ 0 then
    ({ env with
       reward_event_counts := { env.reward_event_counts with
         invalid_move :=
           env.reward_event_counts.invalid_move + invalid_attempts },
       reward_event_totals := { env.reward_event_totals with
         invalid_move := env.reward_event_totals.invalid_move +
           INVALID_MOVE_PENALTY * (invalid_attempts : ℚ) } },
     reward)
  else (env, reward)

/-- Lines 1082-1085: the success-independent completion-delay decay and its
ledger entry. -/
def applyDecayStage (env : Env) (team_idx : Nat) (decay : ℚ)
    (skip_decay : Bool) (reward : ℚ) : Env × ℚ :=
  if ¬skip_decay ∧ team_idx < env.completion_delay_turns.length then
    ({ env with
       reward_event_counts := { env.reward_event_counts with
         completion_delay := env.reward_event_counts.completion_delay + 1 },
       reward_event_totals := { env.reward_event_totals with
         completion_delay :=
           env.reward_event_totals.completion_delay + decay } },
     reward + decay)
  else (env, reward)

/-- Lines 1087-1100: recompute the per-team completion totals and reset or
grow the completion-delay turn counter (no reward change). -/
def updateDelayTurns (env : Env) (team_idx : Nat)
    (prev_completed : List Nat) (skip_decay : Bool) (extra_delay : Nat) :
    Env :=
  let teams_now : List (List PlayerRef) :=
    match env.game_state with | some g => g.teams | none => []
  let new_completed := teamCompleted env.player_team_map
    (get_completed_counts env.game_state) teams_now.length
  if team_idx < env.completion_delay_turns.length then
    if prev_completed.getD team_idx 0 < new_completed.getD team_idx 0 then
      let ng := env.completion_delay_growth.set team_idx
        ((env.completion_delay_growth.getD team_idx
          COMPLETION_DELAY_GROWTH) * 0.99)
      { env with
        completion_delay_turns := env.completion_delay_turns.set team_idx 0,
        completion_delay_growth := ng }
    else if ¬skip_decay then
      let nt := env.completion_delay_turns.set team_idx
        ((env.completion_delay_turns.getD team_idx 0) + 1 + extra_delay)
      { env with completion_delay_turns := nt }
    else env
  else env

/-- Lines 1104-1123: terminal bookkeeping — the winners' bonus ledger and
`last_step_info` entries (the bonus itself is paid by the trainer, not the
step reward) and the all-pieces-complete bonus. -/
def applyDoneStage (env : Env) (response : EngineResponse)
    (player_id : Nat) (done : Bool) (reward : ℚ) : Env × ℚ :=
  if done then
    let winners := response.winningTeam.getD []
    let env := { env with last_step_info := {} }
    let env :=
      if ¬winners.isEmpty ∧
          winners.any (fun pl => pl.position == some player_id) then
        { env with
          last_step_info :=
            { win_bonus := some env.win_bonus,
              final_move_bonus := some FINAL_MOVE_BONUS,
              was_final := true },
          reward_event_counts := { env.reward_event_counts with
            game_win := env.reward_event_counts.game_win + 1 },
          reward_bonus_totals := { env.reward_bonus_totals with
            win_bonus := env.reward_bonus_totals.win_bonus + env.win_bonus,
            final_move_bonus := env.reward_bonus_totals.final_move_bonus +
              FINAL_MOVE_BONUS } }
      else env
    let pieces1 : List Piece :=
      match env.game_state with | some g => g.pieces | none => []
    let player_pieces := pieces1.filter (fun p => p.playerId == player_id)
    if ¬player_pieces.isEmpty ∧ player_pieces.all (fun p => p.completed) then
      ({ env with
         reward_event_counts := { env.reward_event_counts with
           completion := env.reward_event_counts.completion + 1 },
         reward_event_totals := { env.reward_event_totals with
           completion :=
             env.reward_event_totals.completion + COMPLETION_BONUS } },
       reward + COMPLETION_BONUS)
    else (env, reward)
  else (env, reward)

/-- Lines 1146-1152: scale down small positive rewards by the accumulated
completion-delay decay. -/
def applyScaling (env : Env) (team_idx : Nat) (reward : ℚ) : ℚ :=
  if 0 < reward ∧ reward < 1000 ∧
      team_idx < env.completion_delay_turns.length then
    reward / POSITIVE_REWARD_DECAY ^
      (env.completion_delay_turns.getD team_idx 0)
  else reward

/-- `GameEnvironment.step` over the response oracle: execute `action0` for
`player_id` (resolving failures through the retry chain), diff the old and
new game states into a scalar reward and the reward-event ledgers, and
return `(environment', reward, done)`.  The observation vector the source
also returns is a pure function of the new state and is not modelled.
`p12`/`p105` stand for the float powers `step_count ** 1.2` and
`step_count ** 1.05`. -/
def stepO (env : Env) (o : Oracle) (action0 : Int) (player_id : Nat)
    (step_count : Nat) (p12 p105 : Nat → ℚ) : Option (Env × ℚ × Bool) :=
  let env := { env with last_step_info := {} }
  let gs := env.game_state
  let team_idx := mapGetD env.player_team_map player_id 0
  let teams : List (List PlayerRef) :=
    match gs with | some g => g.teams | none => []
  let prev_completed_players :=
    match gs with | some _ => get_completed_counts gs | none => [0, 0, 0, 0]
  let pieces0 : List Piece := match gs with | some g => g.pieces | none => []
  let bp := buildPrev pieces0 player_id
  let prev_pieces := bp.1
  let occupied_before := bp.2
  let prev_completed :=
    teamCompleted env.player_team_map prev_completed_players teams.length
  let home_len : Nat :=
    if player_id < home_stretches.length then
      (home_stretches.getD player_id []).length
    else 5
  let farthest_before := farthestBefore home_len occupied_before
  let er := applyPendingPenalty env player_id
  let env := er.1
  let reward := er.2
  let decay : ℚ :=
    if team_idx < env.completion_delay_turns.length then
      let d := COMPLETION_DELAY_BASE *
        (env.completion_delay_growth.getD team_idx COMPLETION_DELAY_GROWTH ^
          env.completion_delay_turns.getD team_idx 0)
      let completed_so_far :=
        if team_idx < prev_completed.length then
          prev_completed.getD team_idx 0
        else 0
      let fraction := min ((completed_so_far : ℚ) / 10) 1
      let d := d * max 0 (1 - fraction)
      if d < COMPLETION_DELAY_CAP then COMPLETION_DELAY_CAP else d
    else 0
  match runRetryLoop gs player_id action0 o with
  | none => none
  | some st =>
    match st.response with
    | none => none
    | some response =>
      let action := st.action
      let invalid_attempts := st.invalid_attempts
      let er := applyInvalidPenalty env invalid_attempts reward
      let env := er.1
      let reward := er.2
      let done := response.gameEnded.getD false
      let my_team : List (Option Nat) :=
        match teams.find? (fun team =>
            team.any (fun pl => pl.position == some player_id)) with
        | some team => team.map (fun pl => pl.position)
        | none => []
      let partner_id : Option Nat :=
        if my_team.length = 2 then
          if my_team.getD 1 none == some player_id then my_team.getD 0 none
          else my_team.getD 1 none
        else none
      let prev_player_home := (pieces0.filter (fun p =>
        p.inHomeStretch && p.playerId == player_id)).length
      let prev_enemy_home := (pieces0.filter (fun p =>
        p.inHomeStretch && !(p.playerId == player_id))).length
      let blk :=
        match response.gameState with
        | some gsRaw =>
          gameStateBlock env response gsRaw player_id step_count action done
            prev_pieces my_team partner_id prev_player_home prev_enemy_home
            prev_completed_players farthest_before reward p12 p105
        | none => some (env, reward, false, 0)
      match blk with
      | none => none
      | some (env, reward, skip_decay, extra_delay) =>
        let er := applyDecayStage env team_idx decay skip_decay reward
        let env := updateDelayTurns er.1 team_idx prev_completed skip_decay
          extra_delay
        let er2 := applyDoneStage env response player_id done er.2
        some (er2.1, applyScaling er2.1 team_idx er2.2, done)

/-! Section: concrete inputs used by the counterexample and witness
theorems below.  `p12 = p105 = fun _ => 0` matches the Python float powers
at the evaluated argument (`0 ** 1.2 = 0 ** 1.05 = 0.0`), and
`rsqrt = fun _ => 0`, `rexp = fun _ => 1` match `sqrt 0` and `exp 0`. -/

/-- A response dict with no keys of interest (e.g. a `makeMove` reply
without a `success` field). -/
def emptyResp : EngineResponse := { error := none }

/-- Two fixed teams `{0, 2}` and `{1, 3}`. -/
def fixTeams : List (List PlayerRef) :=
  [[⟨some 0⟩, ⟨some 2⟩], [⟨some 1⟩, ⟨some 3⟩]]

/-- A one-piece pre-step state: seat 0's piece 1 on the outer track at
`(0, 10)`, 66 forward steps from its entrance. -/
def c1ResetState : GameState :=
  { pieces := [{ id := 1, playerId := 0, position := ⟨0, 10⟩,
                 inHomeStretch := false, inPenaltyZone := false,
                 completed := false }],
    teams := fixTeams }

/-- The environment right after a successful `reset` into `c1ResetState`. -/
def c1Env : Env :=
  applyReset {} { success := some true, gameState := some c1ResetState }

/-- The post-move state: piece 1 has been sent to the penalty zone. -/
def c1MoveState : GameState :=
  { pieces := [{ id := 1, playerId := 0, position := ⟨-1, -1⟩,
                 inHomeStretch := false, inPenaltyZone := true,
                 completed := false }],
    teams := fixTeams }

/-- Engine responses for the C1 episode: action 5 validates, then the move
succeeds, moving piece 1 into the penalty zone and ending the game (so the
one step spans a complete episode with no terminal bonuses). -/
def c1Oracle : Oracle :=
  [{ valid := some true },
   { success := some true, gameState := some c1MoveState,
     gameEnded := some true, captures := some [] }]

/-- The single step of the C1 counterexample episode. -/
def c1Out : Option (Env × ℚ × Bool) :=
  stepO c1Env c1Oracle 5 0 0 (fun _ => 0) (fun _ => 0)

/-- A step of the same episode driven with an exhausted oracle (every
command times out), used as the witness for the amended C1 claim. -/
def c1wOut : Option (Env × ℚ × Bool) :=
  stepO c1Env [] 5 0 0 (fun _ => 0) (fun _ => 0)

/-- Pre-step state for the C9 runs: seat 0's piece 1 two steps before its
home-stretch entrance; no piece of its team is home or completed. -/
def c9ResetState : GameState :=
  { pieces := [{ id := 1, playerId := 0, position := ⟨0, 2⟩,
                 inHomeStretch := false, inPenaltyZone := false,
                 completed := false }],
    teams := fixTeams }

/-- The environment right after a successful `reset` into `c9ResetState`. -/
def c9Env : Env :=
  applyReset {} { success := some true, gameState := some c9ResetState }

/-- Post-move state for the C9 runs: piece 1 has entered seat 0's home
stretch, landing on cell `h`. -/
def c9MoveState (h : Nat) : GameState :=
  { pieces := [{ id := 1, playerId := 0,
                 position := (home_stretches.getD 0 []).getD h ⟨0, 0⟩,
                 inHomeStretch := true, inPenaltyZone := false,
                 completed := false }],
    teams := fixTeams }

/-- The previous-position snapshot of the C9 witness piece: two steps
before seat 0's entrance, outside home stretch and penalty zone. -/
def c9Pi : PrevInfo :=
  { pos := ⟨0, 2⟩, in_home := false, in_penalty := false, completed := false,
    dist := 2 }

/-- The per-piece pass context of the C9 witness: seat 0 acting, its single
piece snapshotted. -/
def c9Ctx : StepCtx :=
  { player_id := 0, partner_id := some 2, prev_pieces := [(1, c9Pi)],
    farthest_before := 4, capsTruthy := false }

/-- A loop accumulator with nonzero home counters and a nonzero running
home-reward sum: the entry amount must not depend on them. -/
def c9Acc : PieceAcc :=
  { env := {}, reward := 0, skip_decay := false, player_home := 3,
    enemy_home := 2, home_reward_sum := 1 }

/-- The C9 witness piece: piece 1 landing on cell 2 of seat 0's home
stretch. -/
def c9Piece : Piece :=
  { id := 1, playerId := 0,
    position := (home_stretches.getD 0 []).getD 2 ⟨0, 0⟩,
    inHomeStretch := true, inPenaltyZone := false, completed := false }

/-- The C9 step: piece 1 enters the home stretch at cell `h`. -/
def c9Out (h : Nat) : Option (Env × ℚ × Bool) :=
  stepO c9Env
    [{ valid := some true },
     { success := some true, gameState := some (c9MoveState h),
       gameEnded := some false, captures := some [] }]
    5 0 0 (fun _ => 0) (fun _ => 0)

/-- Engine responses for the C2 counterexample: the requested action 5
validates but its `makeMove` returns no `success`; the valid-action query
returns an empty list; all ten band discards then fail too. -/
def c2Oracle : Oracle :=
  [{ valid := some true }, emptyResp, { validActions := some [] }] ++
    List.replicate 10 emptyResp

/-- The fixed discard band `range(70, 80)` as action ids. -/
def bandList : List Int := (List.range' 70 10).map (fun n => (n : Int))

/-- Curriculum state one game short of the stage threshold whose window
will hit a win rate of exactly 0.55 after this episode's win. -/
def c5State : Curriculum :=
  { pieces_per_player := 1, turn_limit := 100, stage_games := 4999,
    stage_winning_games := 0,
    recent_outcomes := List.replicate 274 1 ++ List.replicate 225 0,
    level_reward_multiplier := [], games_played := 0,
    env := { heavy_reward := 2, win_bonus := 10 } }

/-- The all-zero transition. -/
def defaultTransition : Transition :=
  { action := 0, reward := 0, done := false, log_prob := 0, value := 0,
    entropy := 0, game_won := false, extra_advantage := 0 }

/-- A full batch of 64 identical (all-zero) transitions. -/
def c6Mem : List Transition := List.replicate 64 defaultTransition

/-- `replay` on the constant batch (`sqrt 0 = 0`, `exp 0 = 1`). -/
def c6Out : Option ReplayResult :=
  replay { gamma := 0.95, clip_eps := 0.1, batch_size := 64 }
    (fun _ => 0) (fun _ => 1) (List.replicate 64 0) c6Mem

/-- The timeout error object (`sendO`'s result on an exhausted oracle). -/
def timeoutResp : EngineResponse :=
  { error := some "Timeout waiting for response" }

/-! Section: theorems.  General helper lemmas first, then one theorem per
claim (with its witness / counterexample where applicable). -/

lemma pollResponse_timeout (n : Nat) (ticks : List (Option OutLine))
    (h : ∀ t ∈ ticks.take n, tickNoJson t) :
    pollResponse n ticks = { error := some "Timeout waiting for response" } := by
  induction n generalizing ticks with
  | zero => rfl
  | succ n ih =>
    cases ticks with
    | nil =>
      show pollResponse n [] = _
      exact ih [] (by intro t ht; simp at ht)
    | cons t rest =>
      have ht : tickNoJson t := h t (by simp)
      have hrest : ∀ u ∈ rest.take n, tickNoJson u := by
        intro u hu
        exact h u (by simpa using List.mem_cons_of_mem t hu)
      cases t with
      | none => exact ih rest hrest
      | some l =>
        cases l with
        | json r => exact absurd rfl (ht r)
        | noise => exact ih rest hrest

lemma sendO_mem_or_timeout (o : Oracle) :
    (sendO o).1 ∈ o ∨
      (sendO o).1 = { error := some "Timeout waiting for response" } := by
  cases o with
  | nil => exact Or.inr rfl
  | cons r rest => exact Or.inl (by simp [sendO])

/-- Claim C3: `send_command` never raises; it returns the designated error
objects when the process is missing, has exited, or no JSON line arrives
within the 20-tick polling window, and it leaves the cached game state (in
fact the whole client) unchanged in every case. -/
theorem c3_send_command_errors (c : Client) (ticks : List (Option OutLine)) :
    (c.proc = ProcState.noProc →
      send_command c ticks = ({ error := some "Game process not started" }, c)) ∧
    (c.proc = ProcState.exited →
      send_command c ticks = ({ error := some "Process terminated" }, c)) ∧
    (c.proc = ProcState.alive → (∀ t ∈ ticks.take 20, tickNoJson t) →
      send_command c ticks =
        ({ error := some "Timeout waiting for response" }, c)) ∧
    (send_command c ticks).2 = c := by
  refine ⟨?_, ?_, ?_, ?_⟩
  · intro h; simp [send_command, h]
  · intro h; simp [send_command, h]
  · intro h hnj; simp [send_command, h, pollResponse_timeout 20 ticks hnj]
  · cases hp : c.proc <;> simp [send_command, hp]

theorem c3_witness :
    send_command ⟨ProcState.alive, none⟩ [some OutLine.noise, none] =
      ({ error := some "Timeout waiting for response" },
       (⟨ProcState.alive, none⟩ : Client)) :=
  (c3_send_command_errors ⟨ProcState.alive, none⟩
    [some OutLine.noise, none]).2.2.1 rfl (by decide)

/-- Claim C10: `is_action_valid` returns `False` on an error response,
`bool(response['valid'])` when the key is present, and `True` when the
reply carries neither key — a field-less reply counts as valid. -/
theorem c10_is_action_valid_cases (r : EngineResponse) (rest : Oracle) :
    (r.error.isSome → (is_action_valid (r :: rest)).1 = false) ∧
    (r.error = none → ∀ b, r.valid = some b →
      (is_action_valid (r :: rest)).1 = b) ∧
    (r.error = none → r.valid = none →
      (is_action_valid (r :: rest)).1 = true) := by
  refine ⟨?_, ?_, ?_⟩
  · intro h; simp [is_action_valid, sendO, h]
  · intro h b hb; simp [is_action_valid, sendO, h, hb]
  · intro h hb; simp [is_action_valid, sendO, h, hb]

theorem c10_witness : (is_action_valid [emptyResp]).1 = true :=
  (c10_is_action_valid_cases emptyResp []).2.2 rfl rfl

/-- Claim C4: loading a checkpoint of the wrong schema raises the
designated, mutually distinct error in each direction (`GameBot` on a
legacy `q_network_state_dict`-only blob, `DQNBot` on a
`model_state_dict`-only blob), and in both mismatch cases the agent's
weights and `wins`/`games_played`/`total_reward` are returned unmodified. -/
theorem c4_schema_mismatch {W Q O : Type} (b : GameBotS W O)
    (db : DQNBotS Q O) (ck dk : Checkpoint W Q O) (rs olk : Bool) :
    (ck.model_state_dict = none → ck.q_network_state_dict.isSome →
      GameBot.load_model b ck rs = (b, some LoadError.legacyDQNDetected)) ∧
    (dk.q_network_state_dict = none → dk.model_state_dict.isSome →
      DQNBot.load_model db dk rs olk = (db, some LoadError.ppoDetected)) ∧
    LoadError.legacyDQNDetected ≠ LoadError.ppoDetected := by
  refine ⟨?_, ?_, by simp⟩
  · intro hm hq
    obtain ⟨q, hq⟩ := Option.isSome_iff_exists.mp hq
    simp [GameBot.load_model, hm, hq]
  · intro hq hm
    obtain ⟨m, hm⟩ := Option.isSome_iff_exists.mp hm
    simp [DQNBot.load_model, hq, hm]

theorem c4_witness :
    GameBot.load_model (W := Unit) (Q := Unit) (O := Unit)
        ⟨(), (), 3, 7, 11⟩ { q_network_state_dict := some () } false =
      (⟨(), (), 3, 7, 11⟩, some LoadError.legacyDQNDetected) ∧
    DQNBot.load_model (W := Unit) (Q := Unit) (O := Unit)
        ⟨(), (), 3, 7, 11⟩ { model_state_dict := some () } false true =
      (⟨(), (), 3, 7, 11⟩, some LoadError.ppoDetected) :=
  ⟨(c4_schema_mismatch ⟨(), (), 3, 7, 11⟩ ⟨(), (), 3, 7, 11⟩
      { q_network_state_dict := some () } { model_state_dict := some () }
      false true).1 rfl rfl,
   (c4_schema_mismatch ⟨(), (), 3, 7, 11⟩ ⟨(), (), 3, 7, 11⟩
      { q_network_state_dict := some () } { model_state_dict := some () }
      false true).2.1 rfl rfl⟩

/-- Claim C8: an episode that ends without `gameEnded` gets the fixed
penalty `TIMEOUT_PENALTY = -WIN_BONUS / 12` added exactly once to every
seat's episode reward, the timeout event counted once, and the timeout
total incremented by `TIMEOUT_PENALTY * number_of_seats` (so by
`TIMEOUT_PENALTY * 4` for the four seats). -/
theorem c8_timeout_penalty (gameEnded : Bool) (rewards : List ℚ) (cnt : Nat)
    (tot : ℚ) (hg : gameEnded = false) :
    TIMEOUT_PENALTY = -WIN_BONUS / 12 ∧
    (applyTimeoutPenalty gameEnded rewards cnt tot).1 =
      rewards.map (fun r => r + TIMEOUT_PENALTY) ∧
    (applyTimeoutPenalty gameEnded rewards cnt tot).2.1 = cnt + 1 ∧
    (applyTimeoutPenalty gameEnded rewards cnt tot).2.2 =
      tot + TIMEOUT_PENALTY * (rewards.length : ℚ) ∧
    (rewards.length = 4 →
      (applyTimeoutPenalty gameEnded rewards cnt tot).2.2 =
        tot + TIMEOUT_PENALTY * 4) := by
  subst hg
  refine ⟨rfl, ?_, ?_, ?_, ?_⟩
  · simp [applyTimeoutPenalty]
  · simp [applyTimeoutPenalty]
  · simp [applyTimeoutPenalty]
  · intro h4; simp [applyTimeoutPenalty, h4]

theorem c8_witness :
    (applyTimeoutPenalty false [1, 2, 3, 4] 0 0).1 =
      [1 + TIMEOUT_PENALTY, 2 + TIMEOUT_PENALTY, 3 + TIMEOUT_PENALTY,
       4 + TIMEOUT_PENALTY] ∧
    (applyTimeoutPenalty false [1, 2, 3, 4] 0 0).2.2 =
      0 + TIMEOUT_PENALTY * 4 :=
  ⟨(c8_timeout_penalty false [1, 2, 3, 4] 0 0 rfl).2.1,
   (c8_timeout_penalty false [1, 2, 3, 4] 0 0 rfl).2.2.2.2 rfl⟩

lemma lookupMult_setMult (m : List (Nat × ℚ)) (l : Nat) (v : ℚ) :
    lookupMult (setMult m l v) l = v := by
  simp [lookupMult, setMult]

/-- Claim C7: per-episode, the per-stage reward multiplier moves up by
exactly `REWARD_TUNE_STEP = 0.1` (clamped to `MAX_REWARD_MULTIPLIER = 2`)
when the windowed win rate is below `WINRATE_TARGET = 0.75`, moves down by
`0.1` (clamped to `MIN_REWARD_MULTIPLIER = 0.5`) when the rate exceeds the
target by more than `0.15`, stays within `[0.5, 2]`, and the updated value
immediately scales both the heavy-reward weight and the win bonus written
into the environment. -/
theorem c7_reward_multiplier (mult : List (Nat × ℚ)) (pieces games : Nat)
    (wr : ℚ) (env : EnvKnobs)
    (hlo : MIN_REWARD_MULTIPLIER ≤ lookupMult mult pieces)
    (hhi : lookupMult mult pieces ≤ MAX_REWARD_MULTIPLIER) :
    (MIN_REWARD_MULTIPLIER ≤
        lookupMult (adjustRewardMultiplier mult pieces games wr env).1 pieces ∧
      lookupMult (adjustRewardMultiplier mult pieces games wr env).1 pieces ≤
        MAX_REWARD_MULTIPLIER) ∧
    (wr < WINRATE_TARGET →
      lookupMult (adjustRewardMultiplier mult pieces games wr env).1 pieces =
        min (lookupMult mult pieces + REWARD_TUNE_STEP)
          MAX_REWARD_MULTIPLIER) ∧
    (WINRATE_TARGET + 0.15 < wr →
      lookupMult (adjustRewardMultiplier mult pieces games wr env).1 pieces =
        max (lookupMult mult pieces - REWARD_TUNE_STEP)
          MIN_REWARD_MULTIPLIER) ∧
    (¬wr < WINRATE_TARGET → ¬WINRATE_TARGET + 0.15 < wr →
      lookupMult (adjustRewardMultiplier mult pieces games wr env).1 pieces =
        lookupMult mult pieces) ∧
    (adjustRewardMultiplier mult pieces games wr env).2.heavy_reward =
      HEAVY_REWARD_BASE *
        lookupMult (adjustRewardMultiplier mult pieces games wr env).1 pieces ∧
    (adjustRewardMultiplier mult pieces games wr env).2.win_bonus =
      WIN_BONUS *
        lookupMult (adjustRewardMultiplier mult pieces games wr env).1 pieces := by
  have hset : (adjustRewardMultiplier mult pieces games wr env).1 =
      setMult mult pieces
        (if wr < WINRATE_TARGET then
          min (lookupMult mult pieces + REWARD_TUNE_STEP) MAX_REWARD_MULTIPLIER
        else if WINRATE_TARGET + 0.15 < wr then
          max (lookupMult mult pieces - REWARD_TUNE_STEP) MIN_REWARD_MULTIPLIER
        else lookupMult mult pieces) := rfl
  have hf : lookupMult (adjustRewardMultiplier mult pieces games wr env).1
        pieces =
      (if wr < WINRATE_TARGET then
        min (lookupMult mult pieces + REWARD_TUNE_STEP) MAX_REWARD_MULTIPLIER
      else if WINRATE_TARGET + 0.15 < wr then
        max (lookupMult mult pieces - REWARD_TUNE_STEP) MIN_REWARD_MULTIPLIER
      else lookupMult mult pieces) := by
    rw [hset, lookupMult_setMult]
  have hknobs : (adjustRewardMultiplier mult pieces games wr env).2 =
      applyRewardSchedule games
        (adjustRewardMultiplier mult pieces games wr env).1 pieces env := rfl
  refine ⟨?_, ?_, ?_, ?_, ?_, ?_⟩
  · rw [hf]
    split_ifs with h1 h2
    · constructor
      · refine le_min ?_ ?_
        · have : (0 : ℚ) < REWARD_TUNE_STEP := by norm_num [REWARD_TUNE_STEP]
          linarith
        · norm_num [MIN_REWARD_MULTIPLIER, MAX_REWARD_MULTIPLIER]
      · exact min_le_right _ _
    · constructor
      · exact le_max_right _ _
      · refine max_le ?_ ?_
        · have : (0 : ℚ) < REWARD_TUNE_STEP := by norm_num [REWARD_TUNE_STEP]
          linarith
        · norm_num [MIN_REWARD_MULTIPLIER, MAX_REWARD_MULTIPLIER]
    · exact ⟨hlo, hhi⟩
  · intro h; rw [hf, if_pos h]
  · intro h
    have h' : ¬wr < WINRATE_TARGET := by
      have : (0 : ℚ) < 0.15 := by norm_num
      push_neg
      linarith
    rw [hf, if_neg h', if_pos h]
  · intro h1 h2; rw [hf, if_neg h1, if_neg h2]
  · rw [hknobs]
    simp [applyRewardSchedule, REWARD_SCHEDULE]
  · rw [hknobs]
    simp [applyRewardSchedule, REWARD_SCHEDULE]

theorem c7_witness :
    lookupMult
        (adjustRewardMultiplier [] 1 0 0.5 ⟨2, 10⟩).1 1 =
      min (lookupMult [] 1 + REWARD_TUNE_STEP) MAX_REWARD_MULTIPLIER ∧
    (adjustRewardMultiplier [] 1 0 0.5 ⟨2, 10⟩).2.win_bonus =
      WIN_BONUS * lookupMult (adjustRewardMultiplier [] 1 0 0.5 ⟨2, 10⟩).1 1 :=
  ⟨(c7_reward_multiplier [] 1 0 0.5 ⟨2, 10⟩ (by norm_num [lookupMult,
      MIN_REWARD_MULTIPLIER]) (by norm_num [lookupMult,
      MAX_REWARD_MULTIPLIER])).2.1 (by norm_num [WINRATE_TARGET]),
   (c7_reward_multiplier [] 1 0 0.5 ⟨2, 10⟩ (by norm_num [lookupMult,
      MIN_REWARD_MULTIPLIER]) (by norm_num [lookupMult,
      MAX_REWARD_MULTIPLIER])).2.2.2.2.2⟩

lemma curriculumPre_fields (c : Curriculum) (gE : Bool)
    (wT : List PlayerRef) :
    (curriculumPre c gE wT).pieces_per_player = c.pieces_per_player ∧
    (curriculumPre c gE wT).stage_games = c.stage_games + 1 ∧
    (curriculumPre c gE wT).turn_limit = c.turn_limit ∧
    (curriculumPre c gE wT).recent_outcomes =
      dequeAppend500 c.recent_outcomes
        (if gE ∧ ¬wT.isEmpty then 1 else 0) := by
  cases gE <;> by_cases hw : wT.isEmpty <;> simp [curriculumPre, hw]

/-- Claim C5 (amended): after an episode, `pieces_per_player` increments by
exactly one iff the stage has at least 5000 games and the 500-outcome
windowed win rate is at least (not strictly above) 0.55 and the piece count
is below 5; on advancement the window and stage counters reset and
`turn_limit` becomes `100 * pieces_per_player`; the piece count never
exceeds 5. -/
theorem c5_curriculum_amended (c : Curriculum) (gE : Bool)
    (wT : List PlayerRef) (hp : c.pieces_per_player ≤ 5) :
    ((curriculumUpdate c gE wT).pieces_per_player = c.pieces_per_player + 1 ↔
      (5000 ≤ c.stage_games + 1 ∧
        (0.55 : ℚ) ≤ winRateOf (dequeAppend500 c.recent_outcomes
          (if gE ∧ ¬wT.isEmpty then 1 else 0)) ∧
        c.pieces_per_player < 5)) ∧
    ((curriculumUpdate c gE wT).pieces_per_player = c.pieces_per_player + 1 →
      ((curriculumUpdate c gE wT).recent_outcomes = [] ∧
       (curriculumUpdate c gE wT).stage_games = 0 ∧
       (curriculumUpdate c gE wT).stage_winning_games = 0 ∧
       (curriculumUpdate c gE wT).turn_limit =
         100 * (curriculumUpdate c gE wT).pieces_per_player)) ∧
    ((curriculumUpdate c gE wT).pieces_per_player = c.pieces_per_player ∨
      (curriculumUpdate c gE wT).pieces_per_player =
        c.pieces_per_player + 1) ∧
    (curriculumUpdate c gE wT).pieces_per_player ≤ 5 := by
  obtain ⟨h1, h2, h3, h4⟩ := curriculumPre_fields c gE wT
  have hcc : (5000 ≤ (curriculumPre c gE wT).stage_games ∧
      (0.55 : ℚ) ≤ winRateOf (curriculumPre c gE wT).recent_outcomes ∧
      (curriculumPre c gE wT).pieces_per_player < 5) ↔
      (5000 ≤ c.stage_games + 1 ∧
        (0.55 : ℚ) ≤ winRateOf (dequeAppend500 c.recent_outcomes
          (if gE ∧ ¬wT.isEmpty then 1 else 0)) ∧
        c.pieces_per_player < 5) := by
    rw [h1, h2, h4]
  unfold curriculumUpdate
  by_cases hc : 5000 ≤ c.stage_games + 1 ∧
      (0.55 : ℚ) ≤ winRateOf (dequeAppend500 c.recent_outcomes
        (if gE ∧ ¬wT.isEmpty then 1 else 0)) ∧
      c.pieces_per_player < 5
  · rw [if_pos (hcc.mpr hc)]
    refine ⟨⟨fun _ => hc, fun _ => by simp [h1]⟩,
      fun _ => ⟨by simp, by simp, by simp, by simp⟩,
      Or.inr (by simp [h1]), ?_⟩
    have h5 := hc.2.2
    simp [h1]
    omega
  · rw [if_neg (fun h => hc (hcc.mp h))]
    rw [h1]
    exact ⟨⟨fun h => absurd h (by omega), fun h => absurd h hc⟩,
      fun h => absurd h (by omega), Or.inl rfl, hp⟩

set_option maxRecDepth 40000 in
/-- Claim C5, counterexample to the claim as stated: at a windowed win rate
of exactly 0.55 (not strictly above the threshold), with 5000 stage games
accumulated, the code does advance the stage. -/
theorem c5_counterexample :
    (curriculumUpdate c5State true [⟨some 0⟩]).pieces_per_player =
      c5State.pieces_per_player + 1 ∧
    winRateOf (dequeAppend500 c5State.recent_outcomes 1) = 0.55 ∧
    ¬((0.55 : ℚ) < winRateOf (dequeAppend500 c5State.recent_outcomes 1)) := by
  refine ⟨by with_unfolding_all decide, by with_unfolding_all decide,
    by with_unfolding_all decide⟩

set_option maxRecDepth 40000 in
theorem c5_witness :
    c5State.pieces_per_player ≤ 5 ∧
    ((curriculumUpdate c5State true [⟨some 0⟩]).pieces_per_player =
        c5State.pieces_per_player + 1 ↔
      (5000 ≤ c5State.stage_games + 1 ∧
        (0.55 : ℚ) ≤ winRateOf (dequeAppend500 c5State.recent_outcomes
          (if (true : Bool) ∧ ¬([(⟨some 0⟩ : PlayerRef)]).isEmpty
           then 1 else 0)) ∧
        c5State.pieces_per_player < 5)) :=
  ⟨by decide, (c5_curriculum_amended c5State true [⟨some 0⟩] (by decide)).1⟩

lemma computeReturns_foldr (γ : ℚ) (l : List (ℚ × Bool)) :
    computeReturns γ l = (l.foldr
      (fun rd acc =>
        let R := if rd.2 then (0 : ℚ) else acc.1
        let R := rd.1 + γ * R
        (R, R :: acc.2))
      ((0 : ℚ), ([] : List ℚ))).2 := by
  unfold computeReturns
  rw [List.foldl_reverse]

lemma computeReturns_foldr_fst (γ : ℚ) (l : List (ℚ × Bool)) :
    (l.foldr
      (fun rd acc =>
        let R := if rd.2 then (0 : ℚ) else acc.1
        let R := rd.1 + γ * R
        (R, R :: acc.2))
      ((0 : ℚ), ([] : List ℚ))).1 =
    ((l.foldr
      (fun rd acc =>
        let R := if rd.2 then (0 : ℚ) else acc.1
        let R := rd.1 + γ * R
        (R, R :: acc.2))
      ((0 : ℚ), ([] : List ℚ))).2).headD 0 := by
  cases l with
  | nil => rfl
  | cons rd t => rfl

lemma computeReturns_cons (γ : ℚ) (rd : ℚ × Bool) (l : List (ℚ × Bool)) :
    computeReturns γ (rd :: l) =
      (rd.1 + γ * (if rd.2 then 0 else (computeReturns γ l).headD 0)) ::
        computeReturns γ l := by
  rw [computeReturns_foldr, computeReturns_foldr, List.foldr_cons,
    ← computeReturns_foldr_fst]

lemma computeReturns_length (γ : ℚ) (l : List (ℚ × Bool)) :
    (computeReturns γ l).length = l.length := by
  induction l with
  | nil => rfl
  | cons rd t ih => rw [computeReturns_cons]; simp [ih]

lemma headD_eq_getD_zero (l : List ℚ) : l.headD 0 = l.getD 0 0 := by
  cases l <;> rfl

lemma computeReturns_getD (γ : ℚ) (l : List (ℚ × Bool)) :
    ∀ i, i < l.length →
      (computeReturns γ l).getD i 0 = (l.getD i (0, false)).1 +
        γ * (if (l.getD i (0, false)).2 then 0
             else (computeReturns γ l).getD (i + 1) 0) := by
  induction l with
  | nil => intro i hi; simp at hi
  | cons rd t ih =>
    intro i hi
    rw [computeReturns_cons]
    cases i with
    | zero => simp [headD_eq_getD_zero, List.getD, List.head?_eq_getElem?]
    | succ n =>
      have hn : n < t.length := by simpa using hi
      simpa using ih n hn

lemma map_zip_getD (mem : List Transition) :
    ∀ i, i < mem.length →
      ((mem.map (fun t => t.reward)).zip (mem.map (fun t => t.done))).getD i
          (0, false) =
        ((mem.getD i defaultTransition).reward,
         (mem.getD i defaultTransition).done) := by
  induction mem with
  | nil => intro i hi; simp at hi
  | cons t rest ih =>
    intro i hi
    cases i with
    | zero => rfl
    | succ n =>
      have hn : n < rest.length := by simpa using hi
      simpa using ih n hn

lemma sum_map_sub_div (l : List ℚ) (μ c : ℚ) :
    (l.map (fun a => (a - μ) / c)).sum = (l.sum - l.length * μ) / c := by
  induction l with
  | nil => simp
  | cons a t ih =>
    simp only [List.map_cons, List.sum_cons, ih, List.length_cons]
    rw [div_add_div_same]
    congr 1
    push_cast
    ring

lemma normalized_sum_zero (l : List ℚ) (c : ℚ) :
    (l.map (fun a => (a - listMean l) / c)).sum = 0 := by
  rw [sum_map_sub_div]
  rcases eq_or_ne (l.length : ℚ) 0 with h | h
  · have hl : l = [] := by
      cases l with
      | nil => rfl
      | cons a t =>
        rw [List.length_cons] at h
        exact absurd h (by exact_mod_cast Nat.succ_ne_zero t.length)
    subst hl
    simp
  · rw [listMean, mul_div_cancel₀ _ h]
    simp

/-- Claim C6 (amended): with at least `batch_size` buffered transitions,
`replay` clears the buffer and computes discounted returns satisfying
`return = reward + gamma * next_return`, resetting at every `done`;
advantages are formed as return minus stored value plus stored extra
advantage and scaled by `1 / (population std + 1e-6)` around the batch
mean, so they sum (hence average) to exactly zero — unit variance holds
only up to the `1e-6` regularizer and fails when all advantages are equal;
the returned triple is the approximate KL (mean of old minus new log
probabilities), the clip fraction, and the mean stored entropy.  With
fewer than `batch_size` transitions, `replay` returns `None` without
touching the buffer. -/
theorem c6_replay_amended (h : GameBotHyper) (rsqrt rexp : ℚ → ℚ)
    (nlp : List ℚ) (mem : List Transition) :
    (mem.length < h.batch_size → replay h rsqrt rexp nlp mem = none) ∧
    (¬mem.length < h.batch_size →
      ∀ out, replay h rsqrt rexp nlp mem = some out →
        (out.memory = [] ∧
         out.returns = computeReturns h.gamma
           ((mem.map (fun t => t.reward)).zip (mem.map (fun t => t.done))) ∧
         out.returns.length = mem.length ∧
         (∀ i, i < mem.length →
           out.returns.getD i 0 = (mem.getD i defaultTransition).reward +
             h.gamma * (if (mem.getD i defaultTransition).done then 0
                        else out.returns.getD (i + 1) 0)) ∧
         out.advantages = (List.zipWith
             (fun R t => R - t.value + t.extra_advantage) out.returns
             mem).map
           (fun a => (a - listMean (List.zipWith
               (fun R t => R - t.value + t.extra_advantage) out.returns
               mem)) /
             (rsqrt (listVar (List.zipWith
               (fun R t => R - t.value + t.extra_advantage) out.returns
               mem)) + 1e-6)) ∧
         out.advantages.sum = 0 ∧
         out.approx_kl = listMean (List.zipWith (fun o n => o - n)
           (mem.map (fun t => t.log_prob)) nlp) ∧
         out.mean_entropy = listMean (mem.map (fun t => t.entropy)))) := by
  constructor
  · intro hlt
    simp [replay, hlt]
  · intro hge out hout
    simp only [replay, if_neg hge, Option.some.injEq] at hout
    subst hout
    have hlen : ((mem.map (fun t => t.reward)).zip
        (mem.map (fun t => t.done))).length = mem.length := by simp
    refine ⟨rfl, rfl, ?_, ?_, rfl, ?_, rfl, rfl⟩
    · rw [computeReturns_length, hlen]
    · intro i hi
      have := computeReturns_getD h.gamma
        ((mem.map (fun t => t.reward)).zip (mem.map (fun t => t.done))) i
        (by rw [hlen]; exact hi)
      rw [map_zip_getD mem i hi] at this
      exact this
    · exact normalized_sum_zero _ _

set_option maxRecDepth 40000 in
/-- Claim C6, counterexample to the claim as stated: on a full batch of 64
identical transitions the population standard deviation is 0, the
normalised advantages are all zero, and their variance is 0, not 1 —
`replay` does not normalise to unit variance in this case
(`rsqrt`/`rexp` are instantiated to agree with `sqrt`/`exp` at the
evaluated arguments: `sqrt 0 = 0`, `exp 0 = 1`). -/
theorem c6_counterexample :
    c6Out.map (fun out =>
      (listVar out.advantages, out.advantages.sum, out.memory.length)) =
      some (0, 0, 0) ∧
    (0 : ℚ) ≠ 1 :=
  ⟨by with_unfolding_all decide, by norm_num⟩

theorem c6_witness :
    ¬c6Mem.length < (64 : Nat) ∧
    c6Out.elim False (fun out => out.memory = [] ∧ out.advantages.sum = 0) := by
  have hge : ¬c6Mem.length < (64 : Nat) := by decide
  refine ⟨hge, ?_⟩
  cases ho : c6Out with
  | none =>
    have hs : c6Out.isSome := by with_unfolding_all decide
    rw [ho] at hs
    simp at hs
  | some out =>
    have hh := (c6_replay_amended ⟨0.95, 0.1, 64⟩ (fun _ => 0) (fun _ => 1)
      (List.replicate 64 0) c6Mem).2 hge out ho
    exact ⟨hh.1, hh.2.2.2.2.2.1⟩

lemma sendO_snd_suffix (o : Oracle) : (sendO o).2.IsSuffix o := by
  cases o with
  | nil => exact List.suffix_refl _
  | cons r rest => exact List.suffix_cons r rest

lemma is_action_valid_snd (o : Oracle) :
    (is_action_valid o).2 = (sendO o).2 := by
  rcases h : sendO o with ⟨r, o2⟩
  unfold is_action_valid
  rw [h]
  by_cases he : r.error.isSome
  · simp [he]
  · cases hv : r.valid <;> simp [he, hv]

lemma is_action_valid_snd_suffix (o : Oracle) :
    (is_action_valid o).2.IsSuffix o := by
  rw [is_action_valid_snd]; exact sendO_snd_suffix o

lemma is_action_valid_nil : is_action_valid [] = (false, []) := rfl

lemma is_action_valid_cons_snd (r : EngineResponse) (rest : Oracle) :
    (is_action_valid (r :: rest)).2 = rest :=
  is_action_valid_snd (r :: rest)

lemma gva_fold_suffix (acts : List Int) :
    ∀ init : List Int × Oracle,
      ((acts.foldl
        (fun (acc : List Int × Oracle) act =>
          if 0 ≤ act ∧ act < 80 then
            let vo := is_action_valid acc.2
            ((if vo.1 then acc.1 ++ [act] else acc.1), vo.2)
          else acc)
        init).2).IsSuffix init.2 := by
  induction acts with
  | nil => intro init; exact List.suffix_refl _
  | cons a t ih =>
    intro init
    rw [List.foldl_cons]
    refine (ih _).trans ?_
    by_cases ha : (0 : Int) ≤ a ∧ a < 80
    · simp only [if_pos ha]
      exact is_action_valid_snd_suffix init.2
    · simp only [if_neg ha]
      exact List.suffix_refl _

lemma gva_snd_suffix (gs : Option GameState) (pid : Nat) (o : Oracle) :
    (get_valid_actions gs pid o).2.IsSuffix o := by
  have hfold : ∀ acts : List Int,
      ((acts.foldl
        (fun (acc : List Int × Oracle) act =>
          if 0 ≤ act ∧ act < 80 then
            let vo := is_action_valid acc.2
            ((if vo.1 then acc.1 ++ [act] else acc.1), vo.2)
          else acc)
        (([] : List Int), (sendO o).2)).2).IsSuffix o :=
    fun acts => (gva_fold_suffix acts _).trans (sendO_snd_suffix o)
  simp only [get_valid_actions]
  split
  · exact sendO_snd_suffix o
  · split
    · split
      · exact hfold _
      · exact hfold _
    · exact hfold _

lemma gva_nil (gs : Option GameState) (pid : Nat) :
    get_valid_actions gs pid [] = ((default_discards gs pid).take 1, []) := rfl

lemma default_discards_take1 (gs : Option GameState) (pid : Nat) :
    (default_discards gs pid).take 1 = [] ∨
      (default_discards gs pid).take 1 = [(70 : Int)] := by
  rcases gs with _ | g
  · left; rfl
  · by_cases hp : pid < g.players.length
    · have he : default_discards (some g) pid =
          (List.range (min (g.players.getD pid ⟨0⟩).cards 10)).map
            (fun i => ((70 + i : Nat) : Int)) := by
        unfold default_discards
        simp [hp]
      rw [he]
      rcases hn : min (g.players.getD pid ⟨0⟩).cards 10 with _ | n
      · left; rfl
      · right
        rw [List.range_succ_eq_map]
        simp
    · have he : default_discards (some g) pid = [] := by
        unfold default_discards
        simp [hp]
      rw [he]
      left; rfl

lemma take1_nodup (l : List Int) : (l.take 1).Nodup := by
  cases l with
  | nil => simp
  | cons a t => simp

lemma pyUnique_aux_nodup (l : List Int) :
    ∀ acc : List Int, acc.Nodup →
      (l.foldl (fun acc a => if a ∈ acc then acc else acc ++ [a]) acc).Nodup := by
  induction l with
  | nil => intro acc h; exact h
  | cons a t ih =>
    intro acc h
    rw [List.foldl_cons]
    by_cases ha : a ∈ acc
    · rw [if_pos ha]; exact ih acc h
    · rw [if_neg ha]
      exact ih _ (by simp [List.nodup_append, h, ha])

lemma pyUnique_nodup (l : List Int) : (pyUnique l).Nodup :=
  pyUnique_aux_nodup l [] List.nodup_nil

lemma gva_fst_nodup (gs : Option GameState) (pid : Nat) (o : Oracle) :
    (get_valid_actions gs pid o).1.Nodup := by
  simp only [get_valid_actions]
  split
  · exact take1_nodup _
  · split
    · split
      · exact take1_nodup _
      · exact take1_nodup _
    · exact pyUnique_nodup _

lemma bandList_nodup : bandList.Nodup := by decide

lemma discardSelection_nodup (va tried : List Int) (hva : va.Nodup) :
    (discardSelection va tried).Nodup := by
  simp only [discardSelection]
  split
  · exact List.Nodup.filter _ (by decide)
  · exact hva.filter _

lemma discardSelection_not_tried (va tried : List Int) :
    ∀ d ∈ discardSelection va tried, d ∉ tried := by
  simp only [discardSelection]
  split
  · intro d hd
    simp only [List.mem_filter, decide_eq_true_eq] at hd
    exact hd.2
  · intro d hd
    simp only [List.mem_filter, decide_eq_true_eq] at hd
    exact hd.2.2

lemma discardSelection_mem (va tried : List Int) :
    ∀ d ∈ discardSelection va tried, d ∈ va ∨ d ∈ bandList := by
  simp only [discardSelection]
  split
  · intro d hd
    right
    simp only [List.mem_filter] at hd
    exact hd.1
  · intro d hd
    left
    exact (List.mem_filter.mp hd).1

lemma headI_mem_of_ne_nil (l : List Int) (h : l ≠ []) : l.headI ∈ l := by
  cases l with
  | nil => exact absurd rfl h
  | cons a t => simp [List.headI]

lemma innerDiscard_spec (P : EngineResponse → Prop) (hPt : P timeoutResp)
    (inc : Bool) :
    ∀ (ds : List Int) (st : LoopSt), ds.Nodup → (∀ d ∈ ds, d ∉ st.tried) →
      st.attempts.Nodup → (∀ x ∈ st.attempts, x ∈ st.tried) →
      (∀ r ∈ st.oracle, P r) →
      (∀ r0, st.response = some r0 → P r0) →
      ((innerDiscard inc ds st).attempts.Nodup ∧
       (∀ x ∈ (innerDiscard inc ds st).attempts,
          x ∈ (innerDiscard inc ds st).tried) ∧
       (∀ x ∈ (innerDiscard inc ds st).tried, x ∈ st.tried ∨ x ∈ ds) ∧
       (innerDiscard inc ds st).candidates = st.candidates ∧
       (∀ r0, (innerDiscard inc ds st).response = some r0 → P r0)) := by
  intro ds
  induction ds with
  | nil =>
    intro st _ _ hna hsub _ hresp
    exact ⟨hna, hsub, fun x hx => Or.inl hx, rfl, hresp⟩
  | cons d ds ih =>
    intro st hnd hnt hna hsub horc hresp
    have hd_tried : d ∉ st.tried := hnt d (by simp)
    have hd_att : d ∉ st.attempts := fun hx => hd_tried (hsub d hx)
    have hP1 : P (sendO st.oracle).1 := by
      rcases sendO_mem_or_timeout st.oracle with h | h
      · exact horc _ h
      · rw [h]; exact hPt
    have hna1 : (st.attempts ++ [d]).Nodup := by
      simp [List.nodup_append, hna, hd_att]
    have hsub1 : ∀ x ∈ st.attempts ++ [d], x ∈ st.tried.insert d := by
      intro x hx
      rcases List.mem_append.mp hx with h | h
      · exact List.mem_insert_iff.mpr (Or.inr (hsub x h))
      · simp at h
        subst h
        exact List.mem_insert_iff.mpr (Or.inl rfl)
    have horc1 : ∀ r ∈ (sendO st.oracle).2, P r :=
      fun r hr => horc r ((sendO_snd_suffix st.oracle).subset hr)
    rw [innerDiscard]
    by_cases hsucc : ((sendO st.oracle).1.success.getD false) = true
    · simp only [hsucc, if_true]
      refine ⟨hna1, hsub1, ?_, by trivial, ?_⟩
      · intro x hx
        rcases List.mem_insert_iff.mp hx with h | h
        · exact Or.inr (by simp [h])
        · exact Or.inl h
      · intro r0 h0
        simp only [Option.some.injEq] at h0
        rw [← h0]
        exact hP1
    · simp only [hsucc, if_false]
      cases inc with
      | false =>
        have res := ih
          { st with tried := st.tried.insert d,
                    attempts := st.attempts ++ [d],
                    response := some (sendO st.oracle).1,
                    oracle := (sendO st.oracle).2 }
          (hnd.of_cons)
          (by
            intro d' hd'
            have h1 : d' ∉ st.tried := hnt d' (by simp [hd'])
            have h2 : d' ≠ d := by
              intro he
              subst he
              exact (List.nodup_cons.mp hnd).1 hd'
            simp [List.mem_insert_iff, h1, h2])
          hna1 hsub1 horc1
          (by
            intro r0 h0
            simp only [Option.some.injEq] at h0
            rw [← h0]
            exact hP1)
        refine ⟨res.1, res.2.1, ?_, res.2.2.2.1, res.2.2.2.2⟩
        intro x hx
        rcases res.2.2.1 x hx with h | h
        · rcases List.mem_insert_iff.mp h with h' | h'
          · exact Or.inr (by simp [h'])
          · exact Or.inl h'
        · exact Or.inr (by simp [h])
      | true =>
        have res := ih
          { st with tried := st.tried.insert d,
                    attempts := st.attempts ++ [d],
                    response := some (sendO st.oracle).1,
                    oracle := (sendO st.oracle).2,
                    invalid_attempts := st.invalid_attempts + 1 }
          (hnd.of_cons)
          (by
            intro d' hd'
            have h1 : d' ∉ st.tried := hnt d' (by simp [hd'])
            have h2 : d' ≠ d := by
              intro he
              subst he
              exact (List.nodup_cons.mp hnd).1 hd'
            simp [List.mem_insert_iff, h1, h2])
          hna1 hsub1 horc1
          (by
            intro r0 h0
            simp only [Option.some.injEq] at h0
            rw [← h0]
            exact hP1)
        refine ⟨res.1, res.2.1, ?_, res.2.2.2.1, res.2.2.2.2⟩
        intro x hx
        rcases res.2.2.1 x hx with h | h
        · rcases List.mem_insert_iff.mp h with h' | h'
          · exact Or.inr (by simp [h'])
          · exact Or.inl h'
        · exact Or.inr (by simp [h])

lemma retryLoop_spec (gs : Option GameState) (pid : Nat)
    (P : EngineResponse → Prop) (hPt : P timeoutResp) :
    ∀ fuel (st : LoopSt),
      (2 * st.oracle.length + 2 ≤ fuel ∨
        (1 ≤ fuel ∧ st.oracle = [] ∧ st.action = 70)) →
      st.attempts.Nodup →
      (∀ x ∈ st.attempts, x ∈ st.tried) →
      st.action ∉ st.tried →
      (∀ r ∈ st.oracle, P r) →
      (∀ r0, st.response = some r0 → P r0) →
      ∃ st', retryLoop gs pid fuel st = some st' ∧
        st'.attempts.Nodup ∧
        (∀ x ∈ st'.attempts, x ∈ st'.tried) ∧
        (∀ x ∈ st'.tried, x ∈ st.tried ∨ x = st.action ∨
          (∃ l ∈ st'.candidates, x ∈ l) ∨ x ∈ bandList) ∧
        (∀ l ∈ st.candidates, l ∈ st'.candidates) ∧
        (∀ r0, st'.response = some r0 → P r0) := by
  intro fuel
  induction fuel with
  | zero =>
    intro st hfuel _ _ _ _ _
    rcases hfuel with h | ⟨h, _, _⟩ <;> omega
  | succ fuel ih =>
    intro st hfuel hna hsub hact horc hresp
    have tailCase : ∀ (inc : Bool) (st2 : LoopSt),
        (2 * st2.oracle.length + 2 ≤ fuel ∨
          (st2.oracle = [] ∧ (1 ≤ fuel ∨ (70 : Int) ∈ st2.tried))) →
        st2.attempts.Nodup →
        (∀ x ∈ st2.attempts, x ∈ st2.tried) →
        (∀ r ∈ st2.oracle, P r) →
        (∀ r0, st2.response = some r0 → P r0) →
        ∃ st', consultAlternatives gs pid inc st2 (retryLoop gs pid fuel) =
            some st' ∧
          st'.attempts.Nodup ∧
          (∀ x ∈ st'.attempts, x ∈ st'.tried) ∧
          (∀ x ∈ st'.tried, x ∈ st2.tried ∨
            (∃ l ∈ st'.candidates, x ∈ l) ∨ x ∈ bandList) ∧
          (∀ l ∈ st2.candidates, l ∈ st'.candidates) ∧
          (∀ r0, st'.response = some r0 → P r0) := by
      intro inc st2 hf2 hna2 hsub2 horc2 hresp2
      have horc3 : ∀ r ∈ (get_valid_actions gs pid st2.oracle).2, P r :=
        fun r hr => horc2 r ((gva_snd_suffix gs pid st2.oracle).subset hr)
      unfold consultAlternatives
      by_cases halt : ((get_valid_actions gs pid st2.oracle).1.filter
          (fun a => a ∉ ({ st2 with
            oracle := (get_valid_actions gs pid st2.oracle).2,
            candidates := st2.candidates ++
              [(get_valid_actions gs pid st2.oracle).1] } : LoopSt).tried)).isEmpty
      · rw [if_pos halt]
        have res := innerDiscard_spec P hPt inc
          (discardSelection (get_valid_actions gs pid st2.oracle).1 st2.tried)
          { st2 with
            oracle := (get_valid_actions gs pid st2.oracle).2,
            candidates := st2.candidates ++
              [(get_valid_actions gs pid st2.oracle).1] }
          (discardSelection_nodup _ _ (gva_fst_nodup gs pid st2.oracle))
          (discardSelection_not_tried _ _)
          hna2 hsub2 horc3 hresp2
        refine ⟨_, rfl, res.1, res.2.1, ?_, ?_, res.2.2.2.2⟩
        · intro x hx
          rcases res.2.2.1 x hx with h | h
          · exact Or.inl h
          · rcases discardSelection_mem _ _ x h with h' | h'
            · refine Or.inr (Or.inl ⟨(get_valid_actions gs pid st2.oracle).1,
                ?_, h'⟩)
              rw [res.2.2.2.1]
              exact List.mem_append_right _ (by simp)
            · exact Or.inr (Or.inr h')
        · intro l hl
          rw [res.2.2.2.1]
          exact List.mem_append_left _ hl
      · rw [if_neg halt]
        have haltne : (get_valid_actions gs pid st2.oracle).1.filter
            (fun a => a ∉ st2.tried) ≠ [] := by
          intro h
          exact halt (by simpa [List.isEmpty_iff] using h)
        have hmem := headI_mem_of_ne_nil _ haltne
        have hmem2 := List.mem_filter.mp hmem
        have hact4 : ((get_valid_actions gs pid st2.oracle).1.filter
            (fun a => a ∉ st2.tried)).headI ∉ st2.tried := by
          simpa using hmem2.2
        have hfuel4 : 2 * (get_valid_actions gs pid st2.oracle).2.length + 2 ≤
              fuel ∨
            (1 ≤ fuel ∧ (get_valid_actions gs pid st2.oracle).2 = [] ∧
              ((get_valid_actions gs pid st2.oracle).1.filter
                (fun a => a ∉ st2.tried)).headI = 70) := by
          rcases hf2 with hf | ⟨hemp, hor⟩
          · left
            have := (gva_snd_suffix gs pid st2.oracle).length_le
            omega
          · right
            have hgnil : get_valid_actions gs pid st2.oracle =
                ((default_discards gs pid).take 1, []) := by
              rw [hemp, gva_nil]
            rcases default_discards_take1 gs pid with hdd | hdd
            · exact absurd (by rw [hgnil, hdd]; rfl) haltne
            · have h70 : (70 : Int) ∉ st2.tried := by
                intro h70
                refine haltne ?_
                rw [hgnil, hdd]
                simp [h70]
              have hhead : ((get_valid_actions gs pid st2.oracle).1.filter
                  (fun a => a ∉ st2.tried)).headI = 70 := by
                rw [hgnil, hdd]
                simp [h70]
              refine ⟨?_, by rw [hgnil], hhead⟩
              rcases hor with h | h
              · exact h
              · exact absurd h h70
        have res := ih
          { st2 with
            oracle := (get_valid_actions gs pid st2.oracle).2,
            candidates := st2.candidates ++
              [(get_valid_actions gs pid st2.oracle).1],
            action := ((get_valid_actions gs pid st2.oracle).1.filter
              (fun a => a ∉ st2.tried)).headI }
          (by
            rcases hfuel4 with h | ⟨h1, h2, h3⟩
            · exact Or.inl h
            · exact Or.inr ⟨h1, h2, h3⟩)
          hna2 hsub2 hact4 horc3 hresp2
        obtain ⟨st', hrun, r1, r2, r3, r4, r5⟩ := res
        refine ⟨st', hrun, r1, r2, ?_, ?_, r5⟩
        · intro x hx
          rcases r3 x hx with h | h | h | h
          · exact Or.inl h
          · refine Or.inr (Or.inl ⟨(get_valid_actions gs pid st2.oracle).1,
              ?_, ?_⟩)
            · exact r4 _ (List.mem_append_right _ (by simp))
            · rw [h]; exact hmem2.1
          · exact Or.inr (Or.inl h)
          · exact Or.inr (Or.inr h)
        · intro l hl
          exact r4 l (List.mem_append_left _ hl)
    rw [retryLoop]
    by_cases hvalid : (is_action_valid st.oracle).1
    · simp only [hvalid, not_true, if_false]
      have hP1 : P (sendO (is_action_valid st.oracle).2).1 := by
        rcases sendO_mem_or_timeout (is_action_valid st.oracle).2 with h | h
        · exact horc _ ((is_action_valid_snd_suffix st.oracle).subset h)
        · rw [h]; exact hPt
      have hone : st.oracle ≠ [] := by
        intro h
        rw [h] at hvalid
        exact absurd (congrArg Prod.fst is_action_valid_nil) (by
          simp [hvalid])
      obtain ⟨r, rest, hrr⟩ : ∃ r rest, st.oracle = r :: rest := by
        cases hoc : st.oracle with
        | nil => exact absurd hoc hone
        | cons a b => exact ⟨a, b, rfl⟩
      have hsnd : (is_action_valid st.oracle).2 = rest := by
        rw [hrr]; exact is_action_valid_cons_snd r rest
      have hna1 : (st.attempts ++ [st.action]).Nodup := by
        have : st.action ∉ st.attempts := fun hx => hact (hsub _ hx)
        simp [List.nodup_append, hna, this]
      have hsub1 : ∀ x ∈ st.attempts ++ [st.action],
          x ∈ st.tried.insert st.action := by
        intro x hx
        rcases List.mem_append.mp hx with h | h
        · exact List.mem_insert_iff.mpr (Or.inr (hsub x h))
        · simp at h
          subst h
          exact List.mem_insert_iff.mpr (Or.inl rfl)
      by_cases hsucc : ((sendO (is_action_valid st.oracle).2).1.success.getD
          false) = true
      · simp only [hsucc, if_true]
        refine ⟨_, rfl, hna1, hsub1, ?_, fun l hl => hl, ?_⟩
        · intro x hx
          rcases List.mem_insert_iff.mp hx with h | h
          · exact Or.inr (Or.inl h)
          · exact Or.inl h
        · intro r0 h0
          simp only [Option.some.injEq] at h0
          rw [← h0]
          exact hP1
      · simp only [hsucc, if_false]
        have hf : 2 * st.oracle.length + 2 ≤ fuel + 1 := by
          rcases hfuel with h | ⟨_, hoE, _⟩
          · exact h
          · rw [hrr] at hoE; exact absurd hoE (by simp)
        have res := tailCase true
          { st with
            oracle := (sendO (is_action_valid st.oracle).2).2,
            response := some (sendO (is_action_valid st.oracle).2).1,
            tried := st.tried.insert st.action,
            attempts := st.attempts ++ [st.action],
            invalid_attempts := st.invalid_attempts + 1 }
          (by
            left
            show 2 * (sendO (is_action_valid st.oracle).2).2.length + 2 ≤ fuel
            have h1 : (sendO (is_action_valid st.oracle).2).2.length ≤
                (is_action_valid st.oracle).2.length :=
              (sendO_snd_suffix (is_action_valid st.oracle).2).length_le
            have h2 : (is_action_valid st.oracle).2.length = rest.length := by
              rw [hsnd]
            have h3 : st.oracle.length = rest.length + 1 := by
              rw [hrr]; rfl
            omega)
          hna1 hsub1
          (fun r2 hr2 => horc r2 (((sendO_snd_suffix _).trans
            (is_action_valid_snd_suffix st.oracle)).subset hr2))
          (by
            intro r0 h0
            simp only [Option.some.injEq] at h0
            rw [← h0]
            exact hP1)
        obtain ⟨st', hrun, r1, r2, r3, r4, r5⟩ := res
        refine ⟨st', hrun, r1, r2, ?_, r4, r5⟩
        intro x hx
        rcases r3 x hx with h | h | h
        · rcases List.mem_insert_iff.mp h with h' | h'
          · exact Or.inr (Or.inl h')
          · exact Or.inl h'
        · exact Or.inr (Or.inr (Or.inl h))
        · exact Or.inr (Or.inr (Or.inr h))
    · simp only [hvalid, not_false_iff, if_true]
      have hfuel2 : 2 * (is_action_valid st.oracle).2.length + 2 ≤ fuel ∨
          ((is_action_valid st.oracle).2 = [] ∧
            (1 ≤ fuel ∨ (70 : Int) ∈ st.tried.insert st.action)) := by
        rcases hfuel with hf | ⟨hf1, hoE, ha70⟩
        · cases hoc : st.oracle with
          | nil =>
            right
            constructor
            · rw [is_action_valid_nil]
            · left
              rw [hoc] at hf
              simp at hf
              omega
          | cons a b =>
            left
            rw [is_action_valid_cons_snd a b]
            rw [hoc] at hf
            simp [List.length_cons] at hf
            omega
        · right
          constructor
          · rw [hoE]; rfl
          · right
            rw [ha70]
            exact List.mem_insert_iff.mpr (Or.inl rfl)
      have res := tailCase false
        { st with
          oracle := (is_action_valid st.oracle).2,
          invalid_attempts := st.invalid_attempts + 1,
          tried := st.tried.insert st.action }
        hfuel2 hna
        (fun x hx => List.mem_insert_iff.mpr (Or.inr (hsub x hx)))
        (fun r hr => horc r ((is_action_valid_snd_suffix st.oracle).subset hr))
        hresp
      obtain ⟨st', hrun, r1, r2, r3, r4, r5⟩ := res
      refine ⟨st', hrun, r1, r2, ?_, r4, r5⟩
      intro x hx
      rcases r3 x hx with h | h | h
      · rcases List.mem_insert_iff.mp h with h' | h'
        · exact Or.inr (Or.inl h')
        · exact Or.inl h'
      · exact Or.inr (Or.inr (Or.inl h))
      · exact Or.inr (Or.inr (Or.inr h))

/-- C2 (amended): for every requested action and engine behaviour the retry
chain of `GameEnvironment.step` terminates, never attempts the same action
id twice, and makes at most `1 + (number of distinct candidate valid
actions) + 10` move attempts: the extra `1` is the initially requested
action, which the loop submits before consulting the candidate lists. -/
theorem c2_retry_amended (gs : Option GameState) (pid : Nat) (action : Int)
    (o : Oracle) :
    ∃ st', runRetryLoop gs pid action o = some st' ∧
      st'.attempts.Nodup ∧
      st'.attempts.length ≤ 1 + st'.candidates.flatten.toFinset.card + 10 := by
  obtain ⟨st', hrun, hnd, hsub, htried, _, _⟩ :=
    retryLoop_spec gs pid (fun _ => True) trivial (2 * o.length + 2)
      { action := action, tried := [], invalid_attempts := 0, attempts := [],
        candidates := [], response := none, oracle := o }
      (Or.inl (le_refl _)) List.nodup_nil (by simp) (by simp)
      (fun _ _ => trivial) (by simp)
  refine ⟨st', hrun, hnd, ?_⟩
  have hss : st'.attempts.toFinset ⊆
      insert action (st'.candidates.flatten.toFinset ∪ bandList.toFinset) := by
    intro x hx
    rcases htried x (hsub x (List.mem_toFinset.mp hx)) with
      h | h | ⟨l, hl, hxl⟩ | h
    · exact absurd h (List.not_mem_nil x)
    · exact Finset.mem_insert.mpr (Or.inl h)
    · exact Finset.mem_insert.mpr (Or.inr (Finset.mem_union_left _
        (List.mem_toFinset.mpr (List.mem_flatten.mpr ⟨l, hl, hxl⟩))))
    · exact Finset.mem_insert.mpr (Or.inr (Finset.mem_union_right _
        (List.mem_toFinset.mpr h)))
  have h1 : st'.attempts.length = st'.attempts.toFinset.card :=
    (List.toFinset_card_of_nodup hnd).symm
  have h2 := Finset.card_le_card hss
  have h3 := Finset.card_insert_le action
    (st'.candidates.flatten.toFinset ∪ bandList.toFinset)
  have h4 := Finset.card_union_le st'.candidates.flatten.toFinset
    bandList.toFinset
  have h5 : bandList.toFinset.card ≤ 10 :=
    le_trans (List.toFinset_card_le bandList) (by decide)
  omega

set_option maxRecDepth 40000 in
/-- C2 (counterexample to the stated bound): when the requested action
validates but its move fails, the candidate query returns an empty list and
all ten band discards fail, the loop makes 11 attempts — the requested
action plus the 10-element band — exceeding the claimed bound of
`|candidates| + 10 = 10` attempts. -/
theorem c2_counterexample :
    (runRetryLoop none 0 5 c2Oracle).map
        (fun st => (st.attempts.length, st.candidates.flatten.length)) =
      some (11, 0) ∧ ¬(11 ≤ 0 + 10) := by
  constructor
  · with_unfolding_all decide
  · decide

/-- The final response bound by the retry loop satisfies any property that
holds of every oracle response and of the timeout object. -/
lemma runRetryLoop_response_prop (gs : Option GameState) (pid : Nat)
    (a : Int) (o : Oracle) (P : EngineResponse → Prop) (hPt : P timeoutResp)
    (ho : ∀ r ∈ o, P r) (st : LoopSt)
    (hrun : runRetryLoop gs pid a o = some st) :
    ∀ r0, st.response = some r0 → P r0 := by
  obtain ⟨st', hrun', _, _, _, _, hresp⟩ :=
    retryLoop_spec gs pid P hPt (2 * o.length + 2)
      { action := a, tried := [], invalid_attempts := 0, attempts := [],
        candidates := [], response := none, oracle := o }
      (Or.inl (le_refl _)) List.nodup_nil (by simp) (by simp)
      (fun r hr => ho r hr) (by simp)
  rw [runRetryLoop] at hrun
  rw [hrun'] at hrun
  injection hrun with h
  subst h
  exact hresp

/-- The pending no-home penalty is paid into the ledger exactly as it is
paid into the reward, and the bonus ledger and `last_step_info` are kept. -/
lemma applyPendingPenalty_ledger (env : Env) (pid : Nat) :
    (applyPendingPenalty env pid).2 =
      totalsSum (applyPendingPenalty env pid).1.reward_event_totals -
        totalsSum env.reward_event_totals ∧
    (applyPendingPenalty env pid).1.reward_bonus_totals =
      env.reward_bonus_totals ∧
    (applyPendingPenalty env pid).1.last_step_info = env.last_step_info := by
  simp only [applyPendingPenalty]
  split_ifs with h
  · exact ⟨by simp [totalsSum]; try ring, rfl, rfl⟩
  · exact ⟨by simp, rfl, rfl⟩

/-- The invalid-attempt penalty is ledgered exactly. -/
lemma applyInvalidPenalty_ledger (env : Env) (n : Nat) (reward X : ℚ)
    (hX : reward = totalsSum env.reward_event_totals - X) :
    (applyInvalidPenalty env n reward).2 =
      totalsSum (applyInvalidPenalty env n reward).1.reward_event_totals -
        X ∧
    (applyInvalidPenalty env n reward).1.reward_bonus_totals =
      env.reward_bonus_totals ∧
    (applyInvalidPenalty env n reward).1.last_step_info =
      env.last_step_info := by
  subst hX
  simp only [applyInvalidPenalty]
  split_ifs with h
  · exact ⟨by simp [totalsSum]; try ring, rfl, rfl⟩
  · exact ⟨by push_neg at h; subst h; simp [totalsSum], rfl, rfl⟩

/-- The completion-delay decay is ledgered exactly. -/
lemma applyDecayStage_ledger (env : Env) (tidx : Nat) (decay : ℚ)
    (sk : Bool) (reward X : ℚ)
    (hX : reward = totalsSum env.reward_event_totals - X) :
    (applyDecayStage env tidx decay sk reward).2 =
      totalsSum
          (applyDecayStage env tidx decay sk reward).1.reward_event_totals -
        X ∧
    (applyDecayStage env tidx decay sk reward).1.reward_bonus_totals =
      env.reward_bonus_totals ∧
    (applyDecayStage env tidx decay sk reward).1.last_step_info =
      env.last_step_info := by
  subst hX
  simp only [applyDecayStage]
  split_ifs with h
  · exact ⟨by simp [totalsSum]; try ring, rfl, rfl⟩
  · exact ⟨by simp [totalsSum]; try ring, rfl, rfl⟩

/-- The delay-turn bookkeeping touches no ledger. -/
lemma updateDelayTurns_preserve (env : Env) (tidx : Nat) (pc : List Nat)
    (sk : Bool) (ed : Nat) :
    (updateDelayTurns env tidx pc sk ed).reward_event_totals =
      env.reward_event_totals ∧
    (updateDelayTurns env tidx pc sk ed).reward_bonus_totals =
      env.reward_bonus_totals ∧
    (updateDelayTurns env tidx pc sk ed).last_step_info =
      env.last_step_info := by
  simp only [updateDelayTurns]
  split_ifs <;> exact ⟨rfl, rfl, rfl⟩

/-- The terminal stage ledgers the completion bonus it pays, and pays the
terminal bonuses only into `reward_bonus_totals` and `last_step_info`. -/
lemma applyDoneStage_ledger (env : Env) (resp : EngineResponse) (pid : Nat)
    (done : Bool) (reward X : ℚ)
    (hX : reward = totalsSum env.reward_event_totals - X)
    (hL : env.last_step_info = {}) :
    (applyDoneStage env resp pid done reward).2 =
      totalsSum
          (applyDoneStage env resp pid done reward).1.reward_event_totals -
        X ∧
    bonusSum (applyDoneStage env resp pid done reward).1.reward_bonus_totals -
        bonusSum env.reward_bonus_totals =
      ((applyDoneStage env resp pid done
          reward).1.last_step_info.win_bonus.getD 0 +
       (applyDoneStage env resp pid done
         reward).1.last_step_info.final_move_bonus.getD 0) := by
  subst hX
  simp only [applyDoneStage]
  split_ifs with h1 h2 h3 h4
  · exact ⟨by simp [totalsSum]; try ring, by simp [bonusSum]; try ring⟩
  · exact ⟨by simp [totalsSum]; try ring, by simp [bonusSum]; try ring⟩
  · exact ⟨by simp [totalsSum]; try ring, by simp [bonusSum, hL]; try ring⟩
  · exact ⟨by simp [totalsSum]; try ring, by simp [bonusSum, hL]; try ring⟩
  · exact ⟨by simp [totalsSum]; try ring, by simp [bonusSum, hL]⟩

/-- A non-positive returned reward is untouched by the positive-reward
scaling. -/
lemma applyScaling_nonpos (env : Env) (tidx : Nat) (reward : ℚ)
    (h : applyScaling env tidx reward ≤ 0) :
    applyScaling env tidx reward = reward := by
  simp only [applyScaling] at h ⊢
  split_ifs at h ⊢ with hc
  · exfalso
    have hp : 0 < POSITIVE_REWARD_DECAY ^
        (env.completion_delay_turns.getD tidx 0) :=
      pow_pos (by norm_num [POSITIVE_REWARD_DECAY]) _
    have := div_pos hc.1 hp
    linarith
  · rfl

/-- The full no-`gameState` stage chain of `step` keeps the reward equal to
the ledger delta and pays terminal bonuses exactly into `last_step_info`. -/
lemma noGS_ledger (env1 : Env) (resp : EngineResponse) (pid tidx n : Nat)
    (pc : List Nat) (decay : ℚ) (done : Bool) (ed : Nat)
    (P Q D : Env × ℚ) (U : Env) (E : Env × ℚ) (r : ℚ)
    (hP : P = applyPendingPenalty env1 pid)
    (hQ : Q = applyInvalidPenalty P.1 n P.2)
    (hD : D = applyDecayStage Q.1 tidx decay false Q.2)
    (hU : U = updateDelayTurns D.1 tidx pc false ed)
    (hE : E = applyDoneStage U resp pid done D.2)
    (hr : r = applyScaling E.1 tidx E.2)
    (hL : env1.last_step_info = {})
    (hneg : r ≤ 0) :
    r = totalsSum E.1.reward_event_totals -
        totalsSum env1.reward_event_totals ∧
    bonusSum E.1.reward_bonus_totals - bonusSum env1.reward_bonus_totals =
      (E.1.last_step_info.win_bonus.getD 0 +
        E.1.last_step_info.final_move_bonus.getD 0) := by
  obtain ⟨p1, p2, p3⟩ := applyPendingPenalty_ledger env1 pid
  rw [← hP] at p1 p2 p3
  obtain ⟨q1, q2, q3⟩ := applyInvalidPenalty_ledger P.1 n P.2
    (totalsSum env1.reward_event_totals) p1
  rw [← hQ] at q1 q2 q3
  obtain ⟨d1, d2, d3⟩ := applyDecayStage_ledger Q.1 tidx decay false Q.2
    (totalsSum env1.reward_event_totals) q1
  rw [← hD] at d1 d2 d3
  obtain ⟨u1, u2, u3⟩ := updateDelayTurns_preserve D.1 tidx pc false ed
  rw [← hU] at u1 u2 u3
  have hX3 : D.2 = totalsSum U.reward_event_totals -
      totalsSum env1.reward_event_totals := by rw [u1]; exact d1
  have hL3 : U.last_step_info = {} := by rw [u3, d3, q3, p3, hL]
  obtain ⟨e1, e2⟩ := applyDoneStage_ledger U resp pid done D.2
    (totalsSum env1.reward_event_totals) hX3 hL3
  rw [← hE] at e1 e2
  have hrs : r = E.2 := by
    rw [hr]
    exact applyScaling_nonpos E.1 tidx E.2 (hr ▸ hneg)
  have hbU : U.reward_bonus_totals = env1.reward_bonus_totals := by
    rw [u2, d2, q2, p2]
  constructor
  · rw [hrs]; exact e1
  · rw [hbU] at e2; exact e2

/-- C1 (amended): for every step whose engine responses carry no
`gameState` key (so the per-piece shaping pass is skipped) and whose
returned scalar reward is not positive (so the positive-reward scaling is
inert), the scalar reward equals the signed change of the
`reward_event_totals` ledger, and the change of the `reward_bonus_totals`
ledger equals exactly the terminal bonuses recorded in `last_step_info`. -/
theorem c1_step_ledger (env : Env) (o : Oracle) (a : Int) (pid sc : Nat)
    (p12 p105 : Nat → ℚ) (env' : Env) (r : ℚ) (dn : Bool)
    (hgs : ∀ resp ∈ o, resp.gameState = none)
    (hstep : stepO env o a pid sc p12 p105 = some (env', r, dn))
    (hneg : r ≤ 0) :
    r = totalsSum env'.reward_event_totals -
        totalsSum env.reward_event_totals ∧
    bonusSum env'.reward_bonus_totals - bonusSum env.reward_bonus_totals =
      (env'.last_step_info.win_bonus.getD 0 +
        env'.last_step_info.final_move_bonus.getD 0) := by
  simp only [stepO] at hstep
  split at hstep
  next hloop => exact absurd hstep (by simp)
  next st hloop =>
    split at hstep
    next hresp0 => exact absurd hstep (by simp)
    next response hresp0 =>
      have hrgs : response.gameState = none :=
        runRetryLoop_response_prop _ pid a o
          (fun rr => rr.gameState = none) rfl hgs st hloop response hresp0
      rw [hrgs] at hstep
      simp only [Option.some.injEq, Prod.mk.injEq] at hstep
      obtain ⟨hE, hR, hD⟩ := hstep
      subst hE
      subst hR
      subst hD
      exact noGS_ledger { env with last_step_info := {} } response pid
        _ _ _ _ _ _ _ _ _ _ _ _ rfl rfl rfl rfl rfl rfl rfl hneg

/-- C1 (counterexample to the episode ledger invariant): a complete
one-step episode — seat 0's only piece is sent to the penalty zone and the
game ends with no winner — returns scalar reward `-3/2`, while the signed
sum of `reward_event_totals` plus `reward_bonus_totals` changes only by
`-1`: the `-0.5` penalty-zone-entry shaping term is never ledgered. -/
theorem c1_counterexample :
    (c1Out.map (fun res => (res.2.1, res.2.2,
      totalsSum res.1.reward_event_totals -
        totalsSum c1Env.reward_event_totals +
        (bonusSum res.1.reward_bonus_totals -
          bonusSum c1Env.reward_bonus_totals))) =
      some (-(3/2 : ℚ), true, -1)) ∧
    ((-(3/2 : ℚ)) ≠ -1) := by
  constructor
  · with_unfolding_all decide
  · norm_num

/-- The amended C1 theorem applied to a concrete episode step driven with
an exhausted oracle: every hypothesis is discharged on that input. -/
theorem c1_witness :
    ∃ env' r dn,
      stepO c1Env [] 5 0 0 (fun _ => 0) (fun _ => 0) = some (env', r, dn) ∧
      r ≤ 0 ∧
      r = totalsSum env'.reward_event_totals -
        totalsSum c1Env.reward_event_totals ∧
      bonusSum env'.reward_bonus_totals - bonusSum c1Env.reward_bonus_totals =
        (env'.last_step_info.win_bonus.getD 0 +
          env'.last_step_info.final_move_bonus.getD 0) := by
  rcases ho : stepO c1Env [] 5 0 0 (fun _ => 0) (fun _ => 0) with _ | res
  · exact absurd ho (by with_unfolding_all decide)
  · obtain ⟨env', r, dn⟩ := res
    have hval : (stepO c1Env [] 5 0 0 (fun _ => 0) (fun _ => 0)).map
        (fun t => t.2.1) = some (-(21/20 : ℚ)) := by
      with_unfolding_all decide
    rw [ho] at hval
    simp only [Option.map] at hval
    injection hval with hval
    have hneg : r ≤ 0 := by rw [hval]; norm_num
    obtain ⟨h1, h2⟩ := c1_step_ledger c1Env [] 5 0 0 (fun _ => 0)
      (fun _ => 0) env' r dn (by simp) ho hneg
    exact ⟨env', r, dn, rfl, hneg, h1, h2⟩

/-- The home-entry ledger payout passes the accumulated sum through
verbatim (both when it is zero and when it is not). -/
lemma applyHomeEntryLedger_adds (env : Env) (hrs reward : ℚ) :
    (applyHomeEntryLedger env hrs reward).1.reward_event_totals.home_entry =
      env.reward_event_totals.home_entry + hrs ∧
    (applyHomeEntryLedger env hrs reward).2 = reward + hrs := by
  simp only [applyHomeEntryLedger]
  split_ifs with h
  · exact ⟨by simp, rfl⟩
  · push_neg at h
    subst h
    exact ⟨by simp, by simp⟩

/-- For every context, accumulator and piece of the acting seat that moves
into the home stretch, the per-piece pass adds exactly
`0.2 × HOME_ENTRY_REWARDS[home_index position]` to the home-reward sum —
independent of the accumulator's home counters and of everything else in
the context. -/
lemma pieceFold_home_entry (ctx : StepCtx) (acc : PieceAcc) (p : Piece)
    (pi : PrevInfo)
    (hid : p.id ≠ 0)
    (hpi : prevLookup ctx.prev_pieces p.id = some pi)
    (hnh : pi.in_home = false)
    (hhs : p.inHomeStretch = true)
    (hown : p.playerId = ctx.player_id)
    (hcomp : p.completed = false) :
    (pieceFold ctx acc p).home_reward_sum =
      acc.home_reward_sum +
        0.2 * pyIndex HOME_ENTRY_REWARDS
          (home_index p.position p.playerId) := by
  simp only [pieceFold, hpi, hnh, hhs, hown, hcomp, hid, if_false, if_true,
    Bool.false_eq_true, not_false_iff, and_true, true_and, and_false,
    false_and, if_neg, ite_self, Bool.true_or, Bool.or_false,
    eq_self_iff_true, apply_ite PieceAcc.home_reward_sum]
  ring

/-- C9 (amended): the table `HOME_ENTRY_REWARDS` is strictly increasing;
for every context, accumulator and acting-seat piece entering the home
stretch, the per-piece pass adds exactly `0.2 ×` the table entry indexed by
the home-stretch cell the piece lands on — not by how many of the seat's
team pieces are already home (the accumulator carrying those counts is
universally quantified); the accumulated sum is then paid verbatim into the
`home_entry` ledger bucket on a successful move; and the five end-to-end
runs landing on cells 0–4 ledger exactly those amounts. -/
theorem c9_amended :
    (∀ i : Fin 4, pyIndex HOME_ENTRY_REWARDS i.val <
      pyIndex HOME_ENTRY_REWARDS (i.val + 1)) ∧
    (∀ (ctx : StepCtx) (acc : PieceAcc) (p : Piece) (pi : PrevInfo),
      p.id ≠ 0 →
      prevLookup ctx.prev_pieces p.id = some pi →
      pi.in_home = false →
      p.inHomeStretch = true →
      p.playerId = ctx.player_id →
      p.completed = false →
      (pieceFold ctx acc p).home_reward_sum =
        acc.home_reward_sum +
          0.2 * pyIndex HOME_ENTRY_REWARDS
            (home_index p.position p.playerId)) ∧
    (∀ (env : Env) (hrs reward : ℚ),
      (applyHomeEntryLedger env hrs
          reward).1.reward_event_totals.home_entry =
        env.reward_event_totals.home_entry + hrs ∧
      (applyHomeEntryLedger env hrs reward).2 = reward + hrs) ∧
    (∀ h : Fin 5, (c9Out h.val).map
        (fun res => res.1.reward_event_totals.home_entry) =
      some (0.2 * pyIndex HOME_ENTRY_REWARDS h.val)) := by
  refine ⟨?_, ?_, ?_, ?_⟩
  · intro i
    fin_cases i <;> with_unfolding_all decide
  · exact pieceFold_home_entry
  · exact applyHomeEntryLedger_adds
  · intro h
    fin_cases h <;> with_unfolding_all decide

/-- The universal per-piece conjunct of the amended C9 theorem applied to a
concrete home-stretch entry, with every hypothesis discharged there; the
accumulator carries nonzero home counters. -/
theorem c9_witness :
    (pieceFold c9Ctx c9Acc c9Piece).home_reward_sum =
      c9Acc.home_reward_sum +
        0.2 * pyIndex HOME_ENTRY_REWARDS
          (home_index c9Piece.position c9Piece.playerId) :=
  c9_amended.2.1 c9Ctx c9Acc c9Piece c9Pi (by decide)
    (by with_unfolding_all decide) rfl rfl rfl rfl

/-- C9 (counterexample to indexing by the team-home count): two entries
from identical pre-states — zero team pieces already home — landing on
cells 0 and 2 are ledgered `3/25` and `18/25`, so the home-entry reward is
not determined by how many team pieces had already reached home. -/
theorem c9_counterexample :
    (c9Out 0).map (fun res => res.1.reward_event_totals.home_entry) =
      some (3/25 : ℚ) ∧
    (c9Out 2).map (fun res => res.1.reward_event_totals.home_entry) =
      some (18/25 : ℚ) ∧
    ¬((3/25 : ℚ) = 18/25) := by
  refine ⟨by with_unfolding_all decide, by with_unfolding_all decide,
    by norm_num⟩

end Jogo

